import Mathlib

/-! Fragment: the REST source (`sources/rest`).

A shallow embedding of the Go package `rest` of the Fragment application
(`sources/rest/options.go`, `identify.go`, `alias.go`, `page.go`, `screen.go`,
`batch.go`), followed by theorems about it.

Conventions of the embedding:

* Go strings are Lean `String`s; the helpers of Go's `strings` package that the
  package calls are defined on the character list.
* A Go slice whose nil-ness is observable in a result (`[]byte` payloads,
  `Flows`, `SubEvents`) is an `Option`: `none` is the nil slice.
* `time.Now().UTC()` is an input of the function that calls it: the reading the
  clock gives at that call.
* Library calls whose outcome is decided outside the package (the validators of
  `analytics-go`, the JSON encoders and decoders) are fields of `Deps`.
* The decoding of an object into a struct by `encoding/json`, with its switch
  `DisallowUnknownFields`, is modelled in the namespace `json`.
-/

set_option autoImplicit false
set_option linter.dupNamespace false

/-! ## Go's `strings` helpers -/

namespace strings

/-- Go `strings.HasPrefix(s, p)`: `s` begins with `p`. -/
def HasPrefix (s p : String) : Bool :=
  p.data.isPrefixOf s.data

/-- Go `strings.HasSuffix(s, p)`: `s` ends with `p`. -/
def HasSuffix (s p : String) : Bool :=
  p.data.isSuffixOf s.data

/-- Worker of `Split` for a non-empty separator: `skip` counts the characters
of a separator occurrence still to be passed over, `cur` is the piece being
read, reversed. -/
def splitGo (sep : List Char) : Nat → List Char → List Char → List String
  | _, [], cur => [String.mk cur.reverse]
  | k + 1, _ :: cs, cur => splitGo sep k cs cur
  | 0, c :: cs, cur =>
    if sep.isPrefixOf (c :: cs) then
      String.mk cur.reverse :: splitGo sep (sep.length - 1) cs []
    else
      splitGo sep 0 cs (c :: cur)

/-- Go `strings.Split(s, sep)`: the pieces of `s` between the occurrences of
`sep`; with an empty separator, the characters of `s`. -/
def Split (s sep : String) : List String :=
  if sep.data = [] then s.data.map (fun c => String.mk [c])
  else splitGo sep.data 0 s.data []

end strings

/-! ## `helper/errors` of Blacksmith -/

namespace errors

/-- Go `errors.Validation`: one violation, with the path of the field. -/
structure Validation where
  Message : String
  Path : List String
  deriving DecidableEq, Repr

/-- Go `errors.Error`: the failure handed back to the transport layer. -/
structure Error where
  StatusCode : Nat
  Message : String
  Validations : List Validation
  deriving DecidableEq, Repr

end errors

/-! ## Values of the Go runtime and of the libraries -/

/-- A JSON value as `encoding/json` decodes it into an `interface{}`: `null` is
the nil interface, `array` is `[]interface{}`, `object` is
`map[string]interface{}` (its keys are distinct). -/
inductive JSON where
  | null
  | bool (b : Bool)
  | number (q : ℚ)
  | string (s : String)
  | array (items : List JSON)
  | object (fields : List (String × JSON))

/-- A decoded JSON object, `map[string]interface{}`. -/
abbrev JSON.Object := List (String × JSON)

/-- The contents of a `[]byte`. -/
abbrev Bytes := String

namespace time

/-- Go `time.Time`, as the instant it denotes: seconds since January 1 of
year 1, 00:00:00 UTC, and nanoseconds within the second. `UTC()` keeps the
instant. -/
structure Time where
  sec : Int
  nsec : Nat
  deriving DecidableEq, Repr

/-- The zero value of `time.Time`. -/
def Time.zero : Time := { sec := 0, nsec := 0 }

/-- Go `Time.IsZero`. -/
def Time.IsZero (t : Time) : Bool :=
  t.sec == 0 && t.nsec == 0

end time

namespace analytics

/-- Go `analytics.Context` (analytics-go v3); the package only tests a pointer
to it against nil and calls `MarshalJSON` on it. -/
structure Context where
  fields : JSON.Object

/-- Go `analytics.Traits`, a `map[string]interface{}`: `none` is the nil map. -/
abbrev Traits := Option JSON.Object

/-- Go `analytics.Properties`, a `map[string]interface{}`: `none` is the nil map. -/
abbrev Properties := Option JSON.Object

/-- Go `analytics.Integrations`, a `map[string]interface{}`: `none` is the nil map. -/
abbrev Integrations := Option JSON.Object

/-- Go `analytics.FieldError`: what `Validate` reports (`Typ` is the Go field
`Type`). -/
structure FieldError where
  Typ : String
  Name : String
  Value : JSON

/-- Go `analytics.Identify` (`Typ` is the Go field `Type`). -/
structure Identify where
  Typ : String
  MessageId : String
  AnonymousId : String
  UserId : String
  Timestamp : time.Time
  Context : Option Context
  Traits : Traits
  Integrations : Integrations

/-- Go `analytics.Track`. -/
structure Track where
  Typ : String
  MessageId : String
  AnonymousId : String
  UserId : String
  Event : String
  Timestamp : time.Time
  Context : Option Context
  Properties : Properties
  Integrations : Integrations

/-- Go `analytics.Group`. -/
structure Group where
  Typ : String
  MessageId : String
  AnonymousId : String
  UserId : String
  GroupId : String
  Timestamp : time.Time
  Context : Option Context
  Traits : Traits
  Integrations : Integrations

/-- Go `analytics.Alias`. -/
structure Alias where
  Typ : String
  MessageId : String
  PreviousId : String
  UserId : String
  Timestamp : time.Time
  Context : Option Context
  Integrations : Integrations

/-- Go `analytics.Page`. -/
structure Page where
  Typ : String
  MessageId : String
  AnonymousId : String
  UserId : String
  Name : String
  Timestamp : time.Time
  Context : Option Context
  Properties : Properties
  Integrations : Integrations

/-- Go `analytics.Screen`. -/
structure Screen where
  Typ : String
  MessageId : String
  AnonymousId : String
  UserId : String
  Name : String
  Timestamp : time.Time
  Context : Option Context
  Properties : Properties
  Integrations : Integrations

end analytics

namespace flow

/-- Go `flow.Flow`, restricted to the flows of `segmentflow` the package
builds: each wraps the payload of its kind. -/
inductive Flow where
  | Identify (p : analytics.Identify)
  | Track (p : analytics.Track)
  | Group (p : analytics.Group)
  | Alias (p : analytics.Alias)
  | Page (p : analytics.Page)
  | Screen (p : analytics.Screen)

end flow

namespace source

/-- Go `source.SubEvent`. -/
structure SubEvent where
  Trigger : String
  Context : Option Bytes
  Data : Option Bytes
  Flows : Option (List flow.Flow)

/-- Go `source.Event`; `SentAt` is a pointer, given by the time it points to. -/
structure Event where
  Version : String
  Context : Option Bytes
  Data : Option Bytes
  SentAt : Option time.Time
  Flows : Option (List flow.Flow)
  SubEvents : Option (List SubEvent)

end source

namespace rest

/-! ## `options.go` -/

/-- Go `rest.Options`. -/
structure Options where
  ShowMeta : Bool
  ShowData : Bool
  Prefix : String
  deriving DecidableEq, Repr

/-- The path every violation of `Options.validate` carries. -/
def Options.path : List String := ["Options", "Sources", "rest", "Prefix"]

/-- The value of `fail.Validations` when `Options.validate` reaches its final
test: the list starts empty and each broken rule appends its violation. -/
def Options.violations (env : Options) : List errors.Validation :=
  let v0 : List errors.Validation := []
  if env.Prefix ≠ "" then
    let v1 :=
      if !strings.HasPrefix env.Prefix "/" then
        v0 ++ [{ Message := "Source prefix must start with a '/'", Path := Options.path }]
      else v0
    let v2 :=
      if strings.HasSuffix env.Prefix "/" then
        v1 ++ [{ Message := "Source prefix must not end with a '/'", Path := Options.path }]
      else v1
    v2
  else v0

/-- Go `(*Options).validate`: `none` is the nil error. -/
def Options.validate (env : Options) : Option errors.Error :=
  let fail : errors.Error :=
    { StatusCode := 0, Message := "source/rest: Failed to load",
      Validations := Options.violations env }
  if fail.Validations.length > 0 then some fail else none

/-! ## The library calls of the package -/

/-- The outcomes of the library calls made by the package, and the two kinds
whose files (`track.go`, `group.go`) are used by `batch.go` only through their
`marshal`. -/
structure Deps where
  /-- The method `analytics.Identify.Validate`: `none` is the nil error. -/
  IdentifyValidate : analytics.Identify → Option analytics.FieldError
  /-- The method `analytics.Alias.Validate`. -/
  AliasValidate : analytics.Alias → Option analytics.FieldError
  /-- The method `analytics.Page.Validate`. -/
  PageValidate : analytics.Page → Option analytics.FieldError
  /-- The method `analytics.Screen.Validate`. -/
  ScreenValidate : analytics.Screen → Option analytics.FieldError
  /-- The method `analytics.Context.MarshalJSON`. -/
  ContextMarshalJSON : analytics.Context → Except String Bytes
  /-- The function `json.Marshal` on a non-nil `map[string]interface{}`. -/
  Marshal : JSON.Object → Except String Bytes
  /-- The state of a fresh `Identify` after `json.Unmarshal(b, &e)`, whose
  error the batch loop drops. -/
  UnmarshalIdentify : Bytes → analytics.Identify
  /-- The state of a fresh `Alias` after `json.Unmarshal(b, &e)`. -/
  UnmarshalAlias : Bytes → analytics.Alias
  /-- The state of a fresh `Page` after `json.Unmarshal(b, &e)`. -/
  UnmarshalPage : Bytes → analytics.Page
  /-- The state of a fresh `Screen` after `json.Unmarshal(b, &e)`. -/
  UnmarshalScreen : Bytes → analytics.Screen
  /-- The steps `var e Track; json.Unmarshal(b, &e); e.marshal()` of the batch
  loop, given the reading of the clock. -/
  TrackMarshal : time.Time → Bytes → Except errors.Error source.SubEvent
  /-- The steps `var e Group; json.Unmarshal(b, &e); e.marshal()` of the batch
  loop, given the reading of the clock. -/
  GroupMarshal : time.Time → Bytes → Except errors.Error source.SubEvent

/-- The failure `&errors.Error{StatusCode: 400, Message: "Bad Request"}` that
`marshal` and `Batch.Extract` return when an encoding fails. -/
def badRequest : errors.Error :=
  { StatusCode := 400, Message := "Bad Request", Validations := [] }

/-- The failure `marshal` builds from the field error `fail` of `Validate`. -/
def fieldFailure (fail : analytics.FieldError) : errors.Error :=
  { StatusCode := 400, Message := "Bad Request",
    Validations :=
      [{ Message := fail.Name ++ " must be set",
         Path := strings.Split fail.Typ "." ++ [fail.Name] }] }

/-- The failure `Extract` returns when `Decode` fails with the message `msg`,
for the kind named `kind` in the path. -/
def decodeFailure (kind msg : String) : errors.Error :=
  { StatusCode := 400, Message := "Bad Request",
    Validations := [{ Message := msg, Path := ["analytics", kind] }] }

/-- The block `var ctx []byte; if t.Context != nil { ctx, err =
t.Context.MarshalJSON() ... }` shared by every `marshal` and by
`Batch.Extract`. -/
def encodeContext (d : Deps) (c : Option analytics.Context) :
    Except errors.Error (Option Bytes) :=
  match c with
  | none => .ok none
  | some c =>
    match d.ContextMarshalJSON c with
    | .ok b => .ok (some b)
    | .error _ => .error badRequest

/-- The block `var data []byte; if m != nil { data, err = json.Marshal(&m)
... }` of `marshal`, for the traits or properties `m`. -/
def encodeData (d : Deps) (m : Option JSON.Object) :
    Except errors.Error (Option Bytes) :=
  match m with
  | none => .ok none
  | some m =>
    match d.Marshal m with
    | .ok b => .ok (some b)
    | .error _ => .error badRequest

/-! ## `identify.go` -/

/-- Go `rest.Identify`: the embedded `analytics.Identify` is the parent structure, so
its fields are promoted as in Go and `toIdentify` is the embedded value. -/
structure Identify extends analytics.Identify where
  env : Option Options

/-- Go `Identify.marshal`; `now` is the reading `time.Now().UTC()` gives. The
receiver is a value: the timestamp is set on the copy `t`. -/
def Identify.marshal (d : Deps) (now : time.Time) (t : Identify) :
    Except errors.Error source.SubEvent :=
  let t : Identify :=
    if t.Timestamp.IsZero then
      { t with Timestamp := now }
    else t
  match d.IdentifyValidate t.toIdentify with
  | some fail => .error (fieldFailure fail)
  | none =>
    match encodeContext d t.Context with
    | .error e => .error e
    | .ok ctx =>
      match encodeData d t.Traits with
      | .error e => .error e
      | .ok data =>
        .ok { Trigger := "identify", Context := ctx, Data := data,
              Flows := some [flow.Flow.Identify t.toIdentify] }

/-- Go `Identify.Extract`; `decoded` is the outcome of `decoder.Decode(&payload)`
on the request body, with unknown fields disallowed. -/
def Identify.Extract (d : Deps) (now : time.Time)
    (decoded : Except String analytics.Identify) : Except errors.Error source.Event :=
  match decoded with
  | .error msg => .error (decodeFailure "Identify" msg)
  | .ok p =>
    let payload : Identify := { p with env := none }
    match payload.marshal d now with
    | .error fail => .error fail
    | .ok subevent =>
      .ok { Version := "v1.0", Context := subevent.Context, Data := subevent.Data,
            SentAt := some payload.Timestamp, Flows := subevent.Flows,
            SubEvents := none }

/-! ## `alias.go` -/

/-- Go `rest.Alias`: the embedded `analytics.Alias` is the parent structure, so
its fields are promoted as in Go and `toAlias` is the embedded value. -/
structure Alias extends analytics.Alias where
  env : Option Options

/-- Go `Alias.marshal`; `now` is the reading `time.Now().UTC()` gives. -/
def Alias.marshal (d : Deps) (now : time.Time) (t : Alias) :
    Except errors.Error source.SubEvent :=
  let t : Alias :=
    if t.Timestamp.IsZero then
      { t with Timestamp := now }
    else t
  match d.AliasValidate t.toAlias with
  | some fail => .error (fieldFailure fail)
  | none =>
    match encodeContext d t.Context with
    | .error e => .error e
    | .ok ctx =>
      .ok { Trigger := "alias", Context := ctx, Data := none,
            Flows := some [flow.Flow.Alias t.toAlias] }

/-- Go `Alias.Extract`. -/
def Alias.Extract (d : Deps) (now : time.Time)
    (decoded : Except String analytics.Alias) : Except errors.Error source.Event :=
  match decoded with
  | .error msg => .error (decodeFailure "Alias" msg)
  | .ok p =>
    let payload : Alias := { p with env := none }
    match payload.marshal d now with
    | .error fail => .error fail
    | .ok subevent =>
      .ok { Version := "v1.0", Context := subevent.Context, Data := subevent.Data,
            SentAt := some payload.Timestamp, Flows := subevent.Flows,
            SubEvents := none }

/-! ## `page.go` -/

/-- Go `rest.Page`: the embedded `analytics.Page` is the parent structure, so
its fields are promoted as in Go and `toPage` is the embedded value. -/
structure Page extends analytics.Page where
  env : Option Options

/-- Go `Page.marshal`; `now` is the reading `time.Now().UTC()` gives. -/
def Page.marshal (d : Deps) (now : time.Time) (t : Page) :
    Except errors.Error source.SubEvent :=
  let t : Page :=
    if t.Timestamp.IsZero then
      { t with Timestamp := now }
    else t
  match d.PageValidate t.toPage with
  | some fail => .error (fieldFailure fail)
  | none =>
    match encodeContext d t.Context with
    | .error e => .error e
    | .ok ctx =>
      match encodeData d t.Properties with
      | .error e => .error e
      | .ok data =>
        .ok { Trigger := "page", Context := ctx, Data := data,
              Flows := some [flow.Flow.Page t.toPage] }

/-- Go `Page.Extract`. -/
def Page.Extract (d : Deps) (now : time.Time)
    (decoded : Except String analytics.Page) : Except errors.Error source.Event :=
  match decoded with
  | .error msg => .error (decodeFailure "Page" msg)
  | .ok p =>
    let payload : Page := { p with env := none }
    match payload.marshal d now with
    | .error fail => .error fail
    | .ok subevent =>
      .ok { Version := "v1.0", Context := subevent.Context, Data := subevent.Data,
            SentAt := some payload.Timestamp, Flows := subevent.Flows,
            SubEvents := none }

/-! ## `screen.go` -/

/-- Go `rest.Screen`: the embedded `analytics.Screen` is the parent structure, so
its fields are promoted as in Go and `toScreen` is the embedded value. -/
structure Screen extends analytics.Screen where
  env : Option Options

/-- Go `Screen.marshal`; `now` is the reading `time.Now().UTC()` gives. -/
def Screen.marshal (d : Deps) (now : time.Time) (t : Screen) :
    Except errors.Error source.SubEvent :=
  let t : Screen :=
    if t.Timestamp.IsZero then
      { t with Timestamp := now }
    else t
  match d.ScreenValidate t.toScreen with
  | some fail => .error (fieldFailure fail)
  | none =>
    match encodeContext d t.Context with
    | .error e => .error e
    | .ok ctx =>
      match encodeData d t.Properties with
      | .error e => .error e
      | .ok data =>
        .ok { Trigger := "screen", Context := ctx, Data := data,
              Flows := some [flow.Flow.Screen t.toScreen] }

/-- Go `Screen.Extract`. -/
def Screen.Extract (d : Deps) (now : time.Time)
    (decoded : Except String analytics.Screen) : Except errors.Error source.Event :=
  match decoded with
  | .error msg => .error (decodeFailure "Screen" msg)
  | .ok p =>
    let payload : Screen := { p with env := none }
    match payload.marshal d now with
    | .error fail => .error fail
    | .ok subevent =>
      .ok { Version := "v1.0", Context := subevent.Context, Data := subevent.Data,
            SentAt := some payload.Timestamp, Flows := subevent.Flows,
            SubEvents := none }

/-! ## `batch.go` -/

/-- Go `rest.Batch`: `Events` is the `interface{}` decoded from the key
`batch` (`JSON.null` when the key is absent or null). -/
structure Batch where
  env : Option Options
  Events : JSON
  Context : Option analytics.Context
  Timestamp : time.Time

/-- How a call of `Batch.Extract` ends: it returns an event, returns an error,
or panics. -/
inductive Outcome where
  | ok (event : source.Event)
  | fail (e : errors.Error)
  | panic

/-- A call of `Batch.Extract`: how it ends and what it handed to
`tk.Logger.Error`, in order. -/
structure Run where
  outcome : Outcome
  logged : List errors.Error

/-- The `switch eventType` of the batch loop on the re-encoded item `b`:
`none` is the `default` case. -/
def Batch.dispatch (d : Deps) (now : time.Time) (eventType : String) (b : Bytes) :
    Option (Except errors.Error source.SubEvent) :=
  if eventType = "identify" then
    some (Identify.marshal d now { d.UnmarshalIdentify b with env := none })
  else if eventType = "track" then
    some (d.TrackMarshal now b)
  else if eventType = "group" then
    some (d.GroupMarshal now b)
  else if eventType = "alias" then
    some (Alias.marshal d now { d.UnmarshalAlias b with env := none })
  else if eventType = "page" then
    some (Page.marshal d now { d.UnmarshalPage b with env := none })
  else if eventType = "screen" then
    some (Screen.marshal d now { d.UnmarshalScreen b with env := none })
  else none

/-- One iteration of the batch loop on the item `ev`, from the sub-events and
the log so far; `now` is the reading the clock gives in this iteration. Every
`continue` leaves both unchanged. -/
def Batch.body (d : Deps) (now : time.Time) (ev : JSON)
    (st : List source.SubEvent × List errors.Error) :
    List source.SubEvent × List errors.Error :=
  match ev with
  | .object event =>
    match d.Marshal event with
    | .error _ => st
    | .ok b =>
      match event.lookup "type" with
      | some (.string eventType) =>
        match Batch.dispatch d now eventType b with
        | none => st
        | some (.error fail) => (st.1, st.2 ++ [fail])
        | some (.ok subevent) => (st.1 ++ [subevent], st.2)
      | _ => st
  | _ => st

/-- The loop `for i := range events` of `Batch.Extract`, from index `i` on;
`nows i` is the reading the clock gives in iteration `i`. -/
def Batch.loop (d : Deps) (nows : Nat → time.Time) :
    Nat → List JSON → List source.SubEvent × List errors.Error →
      List source.SubEvent × List errors.Error
  | _, [], st => st
  | i, ev :: events, st => Batch.loop d nows (i + 1) events (Batch.body d (nows i) ev st)

/-- Go `Batch.Extract`; `decoded` is the outcome of `decoder.Decode(&payload)`
on the request body, `now` the reading of the clock for the envelope. The
assertion `payload.Events.([]interface{})` panics on anything but an array. -/
def Batch.Extract (d : Deps) (now : time.Time) (nows : Nat → time.Time)
    (decoded : Except String Batch) : Run :=
  match decoded with
  | .error msg => { outcome := .fail (decodeFailure "Batch" msg), logged := [] }
  | .ok payload =>
    let payload : Batch :=
      if payload.Timestamp.IsZero then { payload with Timestamp := now } else payload
    match payload.Events with
    | .array events =>
      let st := Batch.loop d nows 0 events ([], [])
      match encodeContext d payload.Context with
      | .error e => { outcome := .fail e, logged := st.2 }
      | .ok ctx =>
        { outcome := .ok { Version := "v1.0", Context := ctx, Data := none,
                           SentAt := some payload.Timestamp, Flows := none,
                           SubEvents := some st.1 },
          logged := st.2 }
    | _ => { outcome := .panic, logged := [] }

/-! ## The batch dispatcher as the specification words it -/

/-- The kinds a batch item may name. -/
def Batch.kinds : List String :=
  ["identify", "track", "group", "alias", "page", "screen"]

/-- Following the specification: validate and normalize of the kind named
`kind` on the re-encoded item `b`, decoded leniently against that kind. -/
def Batch.normalize (d : Deps) (now : time.Time) (kind : String) (b : Bytes) :
    Except errors.Error source.SubEvent :=
  match kind with
  | "identify" => Identify.marshal d now { d.UnmarshalIdentify b with env := none }
  | "track" => d.TrackMarshal now b
  | "group" => d.GroupMarshal now b
  | "alias" => Alias.marshal d now { d.UnmarshalAlias b with env := none }
  | "page" => Page.marshal d now { d.UnmarshalPage b with env := none }
  | "screen" => Screen.marshal d now { d.UnmarshalScreen b with env := none }
  | _ => .error badRequest

/-- Following the specification: the sub-event an item contributes. It
contributes one when it is an object whose `type` is a string naming a
supported kind and the per-item processing of that kind (re-encode, decode,
validate, normalize) succeeds; anything else contributes nothing. -/
def Batch.contribution (d : Deps) (now : time.Time) (item : JSON) :
    Option source.SubEvent :=
  match item with
  | .object fields =>
    match fields.lookup "type" with
    | some (.string kind) =>
      if kind ∈ Batch.kinds then
        match d.Marshal fields with
        | .ok b =>
          match Batch.normalize d now kind b with
          | .ok subevent => some subevent
          | .error _ => none
        | .error _ => none
      else none
    | _ => none
  | _ => none

/-- Following the specification: the sub-events of a batch, the contributions
of its items in their order; `nows i` is the reading of the clock for item `i`. -/
def Batch.accepted (d : Deps) (nows : Nat → time.Time) (items : List JSON) :
    List source.SubEvent :=
  items.enum.filterMap (fun p => Batch.contribution d (nows p.1) p.2)

/-! ## The names of the triggers -/

/-- Go `Identify.String`. -/
def Identify.String (_t : Identify) : String := "identify"

/-- Go `Alias.String`. -/
def Alias.String (_t : Alias) : String := "alias"

/-- Go `Page.String`. -/
def Page.String (_t : Page) : String := "page"

/-- Go `Screen.String`. -/
def Screen.String (_t : Screen) : String := "screen"

/-- Go `Batch.String`. -/
def Batch.String (_t : Batch) : String := "batch"

end rest

/-! ## Modes, `source.go` and the registry of triggers -/

namespace source

/-- The constant `source.ModeHTTP` of Blacksmith. -/
def ModeHTTP : String := "http"

/-- Go `source.Route`. -/
structure Route where
  Methods : List String
  Path : String
  ShowMeta : Bool
  ShowData : Bool
  deriving DecidableEq, Repr

/-- Go `source.Mode`; `UsingHTTP` is a pointer. -/
structure Mode where
  Mode : String
  UsingHTTP : Option Route
  deriving DecidableEq, Repr

/-- Go `source.Options` of Blacksmith, the options common to the triggers of a
source. -/
structure Options where
  DefaultVersion : String
  Versions : List (String × time.Time)

end source

namespace analytics

/-- The zero value of `analytics.Identify`. -/
def Identify.zero : Identify :=
  { Typ := "", MessageId := "", AnonymousId := "", UserId := "",
    Timestamp := time.Time.zero, Context := none, Traits := none, Integrations := none }

/-- The zero value of `analytics.Alias`. -/
def Alias.zero : Alias :=
  { Typ := "", MessageId := "", PreviousId := "", UserId := "",
    Timestamp := time.Time.zero, Context := none, Integrations := none }

/-- The zero value of `analytics.Page`. -/
def Page.zero : Page :=
  { Typ := "", MessageId := "", AnonymousId := "", UserId := "", Name := "",
    Timestamp := time.Time.zero, Context := none, Properties := none, Integrations := none }

/-- The zero value of `analytics.Screen`. -/
def Screen.zero : Screen :=
  { Typ := "", MessageId := "", AnonymousId := "", UserId := "", Name := "",
    Timestamp := time.Time.zero, Context := none, Properties := none, Integrations := none }

end analytics

namespace rest

/-- Go `Identify.Mode`: `none` is the panic of `t.env.Prefix` on a nil `env`. -/
def Identify.Mode (t : Identify) : Option source.Mode :=
  match t.env with
  | none => none
  | some env =>
    some { Mode := source.ModeHTTP,
           UsingHTTP := some { Methods := ["POST"], Path := env.Prefix ++ "/v1/identify",
                               ShowMeta := env.ShowMeta, ShowData := env.ShowData } }

/-- Go `Alias.Mode`. -/
def Alias.Mode (t : Alias) : Option source.Mode :=
  match t.env with
  | none => none
  | some env =>
    some { Mode := source.ModeHTTP,
           UsingHTTP := some { Methods := ["POST"], Path := env.Prefix ++ "/v1/alias",
                               ShowMeta := env.ShowMeta, ShowData := env.ShowData } }

/-- Go `Page.Mode`. -/
def Page.Mode (t : Page) : Option source.Mode :=
  match t.env with
  | none => none
  | some env =>
    some { Mode := source.ModeHTTP,
           UsingHTTP := some { Methods := ["POST"], Path := env.Prefix ++ "/v1/page",
                               ShowMeta := env.ShowMeta, ShowData := env.ShowData } }

/-- Go `Screen.Mode`. -/
def Screen.Mode (t : Screen) : Option source.Mode :=
  match t.env with
  | none => none
  | some env =>
    some { Mode := source.ModeHTTP,
           UsingHTTP := some { Methods := ["POST"], Path := env.Prefix ++ "/v1/screen",
                               ShowMeta := env.ShowMeta, ShowData := env.ShowData } }

/-- Go `Batch.Mode`. -/
def Batch.Mode (t : Batch) : Option source.Mode :=
  match t.env with
  | none => none
  | some env =>
    some { Mode := source.ModeHTTP,
           UsingHTTP := some { Methods := ["POST"], Path := env.Prefix ++ "/v1/batch",
                               ShowMeta := env.ShowMeta, ShowData := env.ShowData } }

/-- Go `rest.REST`; both fields are pointers. -/
structure REST where
  env : Option Options
  options : Option source.Options

/-- Go `rest.New`: `none` is the nil source returned after
`logger.Default.Fatal` on invalid options. -/
def New (env : Options) : Option REST :=
  match env.validate with
  | some _ => none
  | none =>
    some { env := some env,
           options := some { DefaultVersion := "v1.0",
                             Versions := [("v1.0", time.Time.zero)] } }

/-- Go `(*REST).Options`. -/
def REST.Options (s : REST) : Option source.Options := s.options

/-- A value of the interface `source.Trigger` as `REST.Triggers` builds them.
The types `Track` and `Group` are declared in `track.go` and `group.go`; of
their values only the `env` that `Triggers` sets is recorded. -/
inductive Trigger where
  | Identify (t : Identify)
  | Track (env : Option Options)
  | Group (env : Option Options)
  | Alias (t : Alias)
  | Page (t : Page)
  | Screen (t : Screen)
  | Batch (t : Batch)

/-- Go `(*REST).Triggers`: the map literal, as the list of its entries. Every
trigger is the zero value of its type but for `env`. -/
def REST.Triggers (s : REST) : List (String × Trigger) :=
  [ ("identify", .Identify { analytics.Identify.zero with env := s.env }),
    ("track", .Track s.env),
    ("group", .Group s.env),
    ("alias", .Alias { analytics.Alias.zero with env := s.env }),
    ("page", .Page { analytics.Page.zero with env := s.env }),
    ("screen", .Screen { analytics.Screen.zero with env := s.env }),
    ("batch", .Batch { env := s.env, Events := .null, Context := none,
                       Timestamp := time.Time.zero }) ]

end rest

/-! ## Decoding with `encoding/json`

The part of `encoding/json` that decides what a key of a JSON object does to a
Go struct: `(*decodeState).object` with its search of the field and the
`disallowUnknownFields` switch of the decoder. What storing a value into the
field of a given type does is a parameter (`Lib`), except for strings. -/

namespace json

/-- What `(*decodeState).value` does to a field of a struct: it stores the
value (or leaves the field as it is, for a `null`); or the value does not fit
the field, the error is kept with `saveError` and decoding goes on; or the
`UnmarshalJSON` of the field fails and decoding returns that error. -/
inductive Stored (α : Type) where
  | ok (v : α)
  | saved (err : String) (v : α)
  | abort (err : String) (v : α)

/-- The struct after a field of it was stored into. -/
def Stored.map {α β : Type} (f : α → β) : Stored α → Stored β
  | .ok v => .ok (f v)
  | .saved err v => .saved err (f v)
  | .abort err v => .abort err (f v)

/-- The parts of `encoding/json` and of the types it stores into that are
taken as given. -/
structure Lib where
  /-- The verb `%q` of `fmt`, as in `fmt.Errorf("json: unknown field %q", key)`. -/
  quote : String → String
  /-- The text of the `UnmarshalTypeError` for a value that does not fit the
  field of the given name (the empty name is the decoded value itself). -/
  typeError : String → JSON → String
  /-- Storing into a `time.Time`, through its `UnmarshalJSON`. -/
  storeTime : JSON → time.Time → Stored time.Time
  /-- Storing into a `*analytics.Context`, a struct of its own: the decoder
  obeys its switch `disallowUnknownFields`, the first argument, in it too. -/
  storeContext : Bool → JSON → Option analytics.Context → Stored (Option analytics.Context)
  /-- Storing into a `map[string]interface{}`. -/
  storeMap : JSON → Option JSON.Object → Stored (Option JSON.Object)

/-- Storing into a `string`: a JSON string is stored, `null` leaves the field
as it is, anything else is an `UnmarshalTypeError` that is saved. -/
def storeString (lib : Lib) (field : String) (v : JSON) (old : String) : Stored String :=
  match v with
  | .string s => .ok s
  | .null => .ok old
  | other => .saved (lib.typeError field other) old

/-- A field of a Go struct as the decoder sees it: its JSON name and what
storing a value into it does to the struct, under the switch
`disallowUnknownFields` of the decoder. -/
structure Field (α : Type) where
  name : String
  store : Bool → JSON → α → Stored α

/-- The folding under which the decoder compares a key with a field name made
of ASCII letters: ASCII letters fold to upper case, the long s (U+017F) to `S`
and the Kelvin sign (U+212A) to `K`. -/
def foldChar (c : Char) : Char :=
  if c = Char.ofNat 0x17F then 'S'
  else if c = Char.ofNat 0x212A then 'K'
  else c.toUpper

/-- The `equalFold` of a field: the key equals the name up to folding. -/
def equalFold (name key : String) : Bool :=
  name.data.map foldChar == key.data.map foldChar

/-- The field the decoder picks for a key: the one of that exact name, else the
first one in the order of the struct whose name equals the key up to folding. -/
def findField {α : Type} (fields : List (Field α)) (key : String) : Option (Field α) :=
  match fields.find? (fun f => f.name == key) with
  | some f => some f
  | none => fields.find? (fun f => equalFold f.name key)

/-- Go `(*decodeState).saveError`: the first error is kept. -/
def saveError (saved : Option String) (err : String) : Option String :=
  match saved with
  | none => some err
  | some first => some first

/-- Go `(*decodeState).object` into a struct, on the entries of the object in
the order they are read, from the struct `v` and the saved error so far; it
gives the struct and the error `unmarshal` returns: that of an aborted store,
else the saved one. A key without a field is skipped, and is an error only
when `disallow` is set. -/
def object {α : Type} (lib : Lib) (fields : List (Field α)) (disallow : Bool) :
    List (String × JSON) → α → Option String → α × Option String
  | [], v, saved => (v, saved)
  | (key, item) :: rest, v, saved =>
    match findField fields key with
    | some f =>
      match f.store disallow item v with
      | .ok v' => object lib fields disallow rest v' saved
      | .saved err v' => object lib fields disallow rest v' (saveError saved err)
      | .abort err v' => (v', some err)
    | none =>
      if disallow then
        object lib fields disallow rest v
          (saveError saved ("json: unknown field " ++ lib.quote key))
      else object lib fields disallow rest v saved

/-- Go `json.Decoder`, by its switch `DisallowUnknownFields`. -/
structure Decoder where
  disallowUnknownFields : Bool

/-- Go `json.NewDecoder`: unknown fields are allowed. -/
def NewDecoder : Decoder := { disallowUnknownFields := false }

/-- Go `(*Decoder).DisallowUnknownFields`. -/
def Decoder.DisallowUnknownFields (dec : Decoder) : Decoder :=
  { dec with disallowUnknownFields := true }

/-- Go `(*Decoder).Decode` into the struct `v` of a body that holds the JSON
value `body`: the struct afterwards and the error returned. A `null` leaves
the struct as it is; a value that is neither `null` nor an object is an
`UnmarshalTypeError`. -/
def Decoder.Decode {α : Type} (dec : Decoder) (lib : Lib) (fields : List (Field α))
    (body : JSON) (v : α) : α × Option String :=
  match body with
  | .object entries => object lib fields dec.disallowUnknownFields entries v none
  | .null => (v, none)
  | other => (v, some (lib.typeError "" other))

/-- Go `json.Unmarshal` into the struct `v` of bytes that hold the JSON value
`data`: unknown fields are never refused. -/
def Unmarshal {α : Type} (lib : Lib) (fields : List (Field α)) (data : JSON) (v : α) :
    α × Option String :=
  NewDecoder.Decode lib fields data v

/-- The JSON texts of `encoding/json`, taken as given: the bytes `json.Marshal`
writes for a map, and the JSON value that bytes hold (`none` when they are not
a JSON text). -/
structure Codec where
  Marshal : JSON.Object → Except String Bytes
  parse : Bytes → Option JSON

/-- Go `json.Unmarshal(b, &v)`, from the bytes: bytes that are not a JSON text
are an error and leave the struct as it is. -/
def unmarshalBytes {α : Type} (lib : Lib) (codec : Codec) (fields : List (Field α))
    (b : Bytes) (v : α) : α × Option String :=
  match codec.parse b with
  | some data => Unmarshal lib fields data v
  | none => (v, some "invalid character")

/-- Inserting an entry before the first one with a greater key, in the order
of Go strings (lexicographic). -/
def insertKey (p : String × JSON) : List (String × JSON) → List (String × JSON)
  | [] => [p]
  | q :: rest => if p.1.data < q.1.data then p :: q :: rest else q :: insertKey p rest

/-- The entries of a map in the order `json.Marshal` writes them: sorted by
key. -/
def sortKeys : List (String × JSON) → List (String × JSON)
  | [] => []
  | p :: rest => insertKey p (sortKeys rest)

/-- The entries whose key has a field in the struct. -/
def knownEntries {α : Type} (fields : List (Field α)) (entries : List (String × JSON)) :
    List (String × JSON) :=
  entries.filter (fun p => (findField fields p.1).isSome)

/-- The bytes written for a map hold the object of its entries, sorted by key. -/
def Codec.RoundTrips (codec : Codec) : Prop :=
  ∀ (m : JSON.Object) (b : Bytes), codec.Marshal m = .ok b →
    codec.parse b = some (.object (sortKeys m))

end json

namespace rest

/-! ## The structs of the payloads as the decoder sees them, and `Extract` with
its decoding -/

/-- The fields of `rest.Identify` for `encoding/json`: those of the embedded
`analytics.Identify`, with the names of their `json` tags; `env` is not
exported. -/
def Identify.fields (lib : json.Lib) : List (json.Field analytics.Identify) :=
  [ { name := "type",
      store := fun _ v a => (json.storeString lib "type" v a.Typ).map
        (fun x => { a with Typ := x }) },
    { name := "messageId",
      store := fun _ v a => (json.storeString lib "messageId" v a.MessageId).map
        (fun x => { a with MessageId := x }) },
    { name := "anonymousId",
      store := fun _ v a => (json.storeString lib "anonymousId" v a.AnonymousId).map
        (fun x => { a with AnonymousId := x }) },
    { name := "userId",
      store := fun _ v a => (json.storeString lib "userId" v a.UserId).map
        (fun x => { a with UserId := x }) },
    { name := "timestamp",
      store := fun _ v a => (lib.storeTime v a.Timestamp).map
        (fun x => { a with Timestamp := x }) },
    { name := "context",
      store := fun dis v a => (lib.storeContext dis v a.Context).map
        (fun x => { a with Context := x }) },
    { name := "traits",
      store := fun _ v a => (lib.storeMap v a.Traits).map
        (fun x => { a with Traits := x }) },
    { name := "integrations",
      store := fun _ v a => (lib.storeMap v a.Integrations).map
        (fun x => { a with Integrations := x }) } ]

/-- The fields of `rest.Alias` for `encoding/json`. -/
def Alias.fields (lib : json.Lib) : List (json.Field analytics.Alias) :=
  [ { name := "type",
      store := fun _ v a => (json.storeString lib "type" v a.Typ).map
        (fun x => { a with Typ := x }) },
    { name := "messageId",
      store := fun _ v a => (json.storeString lib "messageId" v a.MessageId).map
        (fun x => { a with MessageId := x }) },
    { name := "previousId",
      store := fun _ v a => (json.storeString lib "previousId" v a.PreviousId).map
        (fun x => { a with PreviousId := x }) },
    { name := "userId",
      store := fun _ v a => (json.storeString lib "userId" v a.UserId).map
        (fun x => { a with UserId := x }) },
    { name := "timestamp",
      store := fun _ v a => (lib.storeTime v a.Timestamp).map
        (fun x => { a with Timestamp := x }) },
    { name := "context",
      store := fun dis v a => (lib.storeContext dis v a.Context).map
        (fun x => { a with Context := x }) },
    { name := "integrations",
      store := fun _ v a => (lib.storeMap v a.Integrations).map
        (fun x => { a with Integrations := x }) } ]

/-- The fields of `rest.Page` for `encoding/json`. -/
def Page.fields (lib : json.Lib) : List (json.Field analytics.Page) :=
  [ { name := "type",
      store := fun _ v a => (json.storeString lib "type" v a.Typ).map
        (fun x => { a with Typ := x }) },
    { name := "messageId",
      store := fun _ v a => (json.storeString lib "messageId" v a.MessageId).map
        (fun x => { a with MessageId := x }) },
    { name := "anonymousId",
      store := fun _ v a => (json.storeString lib "anonymousId" v a.AnonymousId).map
        (fun x => { a with AnonymousId := x }) },
    { name := "userId",
      store := fun _ v a => (json.storeString lib "userId" v a.UserId).map
        (fun x => { a with UserId := x }) },
    { name := "name",
      store := fun _ v a => (json.storeString lib "name" v a.Name).map
        (fun x => { a with Name := x }) },
    { name := "timestamp",
      store := fun _ v a => (lib.storeTime v a.Timestamp).map
        (fun x => { a with Timestamp := x }) },
    { name := "context",
      store := fun dis v a => (lib.storeContext dis v a.Context).map
        (fun x => { a with Context := x }) },
    { name := "properties",
      store := fun _ v a => (lib.storeMap v a.Properties).map
        (fun x => { a with Properties := x }) },
    { name := "integrations",
      store := fun _ v a => (lib.storeMap v a.Integrations).map
        (fun x => { a with Integrations := x }) } ]

/-- The fields of `rest.Screen` for `encoding/json`. -/
def Screen.fields (lib : json.Lib) : List (json.Field analytics.Screen) :=
  [ { name := "type",
      store := fun _ v a => (json.storeString lib "type" v a.Typ).map
        (fun x => { a with Typ := x }) },
    { name := "messageId",
      store := fun _ v a => (json.storeString lib "messageId" v a.MessageId).map
        (fun x => { a with MessageId := x }) },
    { name := "anonymousId",
      store := fun _ v a => (json.storeString lib "anonymousId" v a.AnonymousId).map
        (fun x => { a with AnonymousId := x }) },
    { name := "userId",
      store := fun _ v a => (json.storeString lib "userId" v a.UserId).map
        (fun x => { a with UserId := x }) },
    { name := "name",
      store := fun _ v a => (json.storeString lib "name" v a.Name).map
        (fun x => { a with Name := x }) },
    { name := "timestamp",
      store := fun _ v a => (lib.storeTime v a.Timestamp).map
        (fun x => { a with Timestamp := x }) },
    { name := "context",
      store := fun dis v a => (lib.storeContext dis v a.Context).map
        (fun x => { a with Context := x }) },
    { name := "properties",
      store := fun _ v a => (lib.storeMap v a.Properties).map
        (fun x => { a with Properties := x }) },
    { name := "integrations",
      store := fun _ v a => (lib.storeMap v a.Integrations).map
        (fun x => { a with Integrations := x }) } ]

/-- The first statements of `Identify.Extract`, on a request whose body holds
the JSON value `body`: `var payload Identify`, `json.NewDecoder(req.Body)`,
`decoder.DisallowUnknownFields()` and `decoder.Decode(&payload)`. -/
def decodeIdentify (lib : json.Lib) (body : JSON) : Except String analytics.Identify :=
  let decoder := json.NewDecoder
  let decoder := decoder.DisallowUnknownFields
  match decoder.Decode lib (Identify.fields lib) body analytics.Identify.zero with
  | (_, some err) => .error err
  | (payload, none) => .ok payload

/-- Go `Identify.Extract`, its decoding included, on a request whose body holds
the JSON value `body`. -/
def Identify.ExtractRequest (lib : json.Lib) (d : Deps) (now : time.Time) (body : JSON) :
    Except errors.Error source.Event :=
  Identify.Extract d now (decodeIdentify lib body)

/-- The first statements of `Alias.Extract`: the decoder disallows unknown
fields. -/
def decodeAlias (lib : json.Lib) (body : JSON) : Except String analytics.Alias :=
  let decoder := json.NewDecoder
  let decoder := decoder.DisallowUnknownFields
  match decoder.Decode lib (Alias.fields lib) body analytics.Alias.zero with
  | (_, some err) => .error err
  | (payload, none) => .ok payload

/-- Go `Alias.Extract`, its decoding included. -/
def Alias.ExtractRequest (lib : json.Lib) (d : Deps) (now : time.Time) (body : JSON) :
    Except errors.Error source.Event :=
  Alias.Extract d now (decodeAlias lib body)

/-- The first statements of `Page.Extract`: the decoder disallows unknown
fields. -/
def decodePage (lib : json.Lib) (body : JSON) : Except String analytics.Page :=
  let decoder := json.NewDecoder
  let decoder := decoder.DisallowUnknownFields
  match decoder.Decode lib (Page.fields lib) body analytics.Page.zero with
  | (_, some err) => .error err
  | (payload, none) => .ok payload

/-- Go `Page.Extract`, its decoding included. -/
def Page.ExtractRequest (lib : json.Lib) (d : Deps) (now : time.Time) (body : JSON) :
    Except errors.Error source.Event :=
  Page.Extract d now (decodePage lib body)

/-- The first statements of `Screen.Extract`: the decoder disallows unknown
fields. -/
def decodeScreen (lib : json.Lib) (body : JSON) : Except String analytics.Screen :=
  let decoder := json.NewDecoder
  let decoder := decoder.DisallowUnknownFields
  match decoder.Decode lib (Screen.fields lib) body analytics.Screen.zero with
  | (_, some err) => .error err
  | (payload, none) => .ok payload

/-- Go `Screen.Extract`, its decoding included. -/
def Screen.ExtractRequest (lib : json.Lib) (d : Deps) (now : time.Time) (body : JSON) :
    Except errors.Error source.Event :=
  Screen.Extract d now (decodeScreen lib body)

/-- The library calls with those of the batch loop on an item made by
`encoding/json`: `json.Marshal(event)` writes the bytes, and
`json.Unmarshal(b, &e)` decodes them into a fresh `e` of the kind, without
refusing unknown fields; the loop drops its error. -/
def Deps.encodingJSON (d : Deps) (lib : json.Lib) (codec : json.Codec) : Deps :=
  { d with
    Marshal := codec.Marshal
    UnmarshalIdentify := fun b =>
      (json.unmarshalBytes lib codec (Identify.fields lib) b analytics.Identify.zero).1
    UnmarshalAlias := fun b =>
      (json.unmarshalBytes lib codec (Alias.fields lib) b analytics.Alias.zero).1
    UnmarshalPage := fun b =>
      (json.unmarshalBytes lib codec (Page.fields lib) b analytics.Page.zero).1
    UnmarshalScreen := fun b =>
      (json.unmarshalBytes lib codec (Screen.fields lib) b analytics.Screen.zero).1 }

end rest

/-! ## A sample of the library calls and of requests

Concrete values for worked examples: the validators are those of analytics-go
v3, the sample encoder writes the `userId` of an object and the sample decoders
read it back. -/

namespace sample

/-- The method `Identify.Validate` of analytics-go v3: a user or anonymous
identifier is required. -/
def IdentifyValidate (msg : analytics.Identify) : Option analytics.FieldError :=
  if msg.UserId.length == 0 && msg.AnonymousId.length == 0 then
    some { Typ := "analytics.Identify", Name := "UserId", Value := .string msg.UserId }
  else none

/-- The method `Alias.Validate` of analytics-go v3: the user identifier is
tested first, then the previous identifier. -/
def AliasValidate (msg : analytics.Alias) : Option analytics.FieldError :=
  if msg.UserId.length == 0 then
    some { Typ := "analytics.Alias", Name := "UserId", Value := .string msg.UserId }
  else if msg.PreviousId.length == 0 then
    some { Typ := "analytics.Alias", Name := "PreviousId", Value := .string msg.PreviousId }
  else none

/-- The method `Page.Validate` of analytics-go v3. -/
def PageValidate (msg : analytics.Page) : Option analytics.FieldError :=
  if msg.UserId.length == 0 && msg.AnonymousId.length == 0 then
    some { Typ := "analytics.Page", Name := "UserId", Value := .string msg.UserId }
  else none

/-- The method `Screen.Validate` of analytics-go v3. -/
def ScreenValidate (msg : analytics.Screen) : Option analytics.FieldError :=
  if msg.UserId.length == 0 && msg.AnonymousId.length == 0 then
    some { Typ := "analytics.Screen", Name := "UserId", Value := .string msg.UserId }
  else none

/-- The sample encoder: the bytes are the `userId` of the object, empty when
it has none. -/
def Marshal (fields : JSON.Object) : Except String Bytes :=
  match fields.lookup "userId" with
  | some (.string s) => .ok s
  | _ => .ok ""

/-- The sample decoder of an identify item. -/
def UnmarshalIdentify (b : Bytes) : analytics.Identify :=
  { Typ := "identify", MessageId := "", AnonymousId := "", UserId := b,
    Timestamp := time.Time.zero, Context := none, Traits := none, Integrations := none }

/-- The sample decoder of an alias item; the sample bytes carry no previous
identifier. -/
def UnmarshalAlias (b : Bytes) : analytics.Alias :=
  { Typ := "alias", MessageId := "", PreviousId := "", UserId := b,
    Timestamp := time.Time.zero, Context := none, Integrations := none }

/-- The sample decoder of a page item. -/
def UnmarshalPage (b : Bytes) : analytics.Page :=
  { Typ := "page", MessageId := "", AnonymousId := "", UserId := b, Name := "",
    Timestamp := time.Time.zero, Context := none, Properties := none, Integrations := none }

/-- The sample decoder of a screen item. -/
def UnmarshalScreen (b : Bytes) : analytics.Screen :=
  { Typ := "screen", MessageId := "", AnonymousId := "", UserId := b, Name := "",
    Timestamp := time.Time.zero, Context := none, Properties := none, Integrations := none }

/-- The sample library: track and group items fail their required field, which
the sample bytes do not carry. -/
def deps : rest.Deps :=
  { IdentifyValidate := IdentifyValidate
    AliasValidate := AliasValidate
    PageValidate := PageValidate
    ScreenValidate := ScreenValidate
    ContextMarshalJSON := fun c => Marshal c.fields
    Marshal := Marshal
    UnmarshalIdentify := UnmarshalIdentify
    UnmarshalAlias := UnmarshalAlias
    UnmarshalPage := UnmarshalPage
    UnmarshalScreen := UnmarshalScreen
    TrackMarshal := fun _ _ =>
      .error (rest.fieldFailure
        { Typ := "analytics.Track", Name := "Event", Value := .string "" })
    GroupMarshal := fun _ _ =>
      .error (rest.fieldFailure
        { Typ := "analytics.Group", Name := "GroupId", Value := .string "" }) }

/-- A reading of the clock: 2026-01-02T00:00:00Z. -/
def now : time.Time := { sec := 63902908800, nsec := 0 }

/-- The readings of the clock in the iterations of a batch loop. -/
def nows (i : Nat) : time.Time := { sec := 63902908800, nsec := i + 1 }

/-- The body `{"userId":"u","previousId":"p"}`, decoded. -/
def aliasBody : analytics.Alias :=
  { Typ := "", MessageId := "", PreviousId := "p", UserId := "u",
    Timestamp := time.Time.zero, Context := none, Integrations := none }

/-- The body `{"previousId":"p"}`, decoded. -/
def aliasNoUser : analytics.Alias :=
  { Typ := "", MessageId := "", PreviousId := "p", UserId := "",
    Timestamp := time.Time.zero, Context := none, Integrations := none }

/-- The body `{"userId":"u"}`, decoded as an identify. -/
def identifyBody : analytics.Identify :=
  { Typ := "", MessageId := "", AnonymousId := "", UserId := "u",
    Timestamp := time.Time.zero, Context := none, Traits := none, Integrations := none }

/-- The body `{"userId":"u"}`, decoded as a page. -/
def pageBody : analytics.Page :=
  { Typ := "", MessageId := "", AnonymousId := "", UserId := "u", Name := "",
    Timestamp := time.Time.zero, Context := none, Properties := none, Integrations := none }

/-- The body `{"userId":"u"}`, decoded as a screen. -/
def screenBody : analytics.Screen :=
  { Typ := "", MessageId := "", AnonymousId := "", UserId := "u", Name := "",
    Timestamp := time.Time.zero, Context := none, Properties := none, Integrations := none }

/-- A page payload with a context and properties, both carrying a `userId`
for the sample encoder to write. -/
def pageWithContext : analytics.Page :=
  { Typ := "", MessageId := "", AnonymousId := "", UserId := "u", Name := "Home",
    Timestamp := time.Time.zero,
    Context := some { fields := [("userId", .string "c")] },
    Properties := some [("userId", .string "q")], Integrations := none }

/-- The items of the body
`{"batch":[{"type":"identify","userId":"u1"},{"type":"bogus"},
{"type":"identify"},7,{"type":"page","userId":"u2"}]}`. -/
def items : List JSON :=
  [ .object [("type", .string "identify"), ("userId", .string "u1")],
    .object [("type", .string "bogus")],
    .object [("type", .string "identify")],
    .number 7,
    .object [("type", .string "page"), ("userId", .string "u2")] ]

/-- The envelope of the body above: no shared context, no shared timestamp. -/
def batch : rest.Batch :=
  { env := none, Events := .array items, Context := none, Timestamp := time.Time.zero }

/-- The envelope of the body `{}`: the key `batch` is absent. -/
def batchAbsent : rest.Batch :=
  { env := none, Events := .null, Context := none, Timestamp := time.Time.zero }

/-- The items of the body `{"batch":[{"type":"bogus"},{"type":"identify"},7]}`:
none is a valid sub-event. -/
def itemsRejected : List JSON :=
  [ .object [("type", .string "bogus")],
    .object [("type", .string "identify")],
    .number 7 ]

end sample

/-! ## A sample of `encoding/json` and further sample requests -/

namespace sample

/-- A shared timestamp of an envelope: 2025-01-02T00:00:00Z. -/
def sharedTimestamp : time.Time := { sec := 63871372800, nsec := 0 }

/-- A sample of the given parts of `encoding/json`. Its `time.Time` reads the
one instant `2025-01-02T00:00:00Z` and fails on any other text; a context and
a map are stored from an object, set to nil by `null`, and refused otherwise. -/
def lib : json.Lib :=
  { quote := fun s => "\"" ++ s ++ "\""
    typeError := fun field _ => "json: cannot unmarshal into Go struct field " ++ field
    storeTime := fun v old =>
      match v with
      | .null => .ok old
      | .string s =>
        if s = "2025-01-02T00:00:00Z" then .ok sharedTimestamp
        else .abort ("parsing time " ++ s) old
      | _ => .abort "Time.UnmarshalJSON: input is not a JSON string" old
    storeContext := fun _ v old =>
      match v with
      | .null => .ok none
      | .object m => .ok (some { fields := m })
      | _ => .saved "json: cannot unmarshal into Go struct field context" old
    storeMap := fun v old =>
      match v with
      | .null => .ok none
      | .object m => .ok (some m)
      | _ => .saved "json: cannot unmarshal into Go struct field of type map" old }

/-- The entries of an object all of whose values are strings. -/
def flat : JSON.Object → Option (List (String × String))
  | [] => some []
  | (k, .string v) :: rest => (flat rest).map (fun l => (k, v) :: l)
  | _ => none

/-- The object of string entries. -/
def unflat (l : List (String × String)) : JSON.Object :=
  l.map (fun p => (p.1, JSON.string p.2))

/-- Every character of a text, each behind the mark `t`. -/
def mark (t : Char) : List Char → List Char
  | [] => []
  | c :: cs => t :: c :: mark t cs

/-- The sample bytes of string entries: the characters of a key behind `k`,
those of its value behind `v`, and `;` after each entry. -/
def write : List (String × String) → List Char
  | [] => []
  | (k, v) :: rest => mark 'k' k.data ++ (mark 'v' v.data ++ ';' :: write rest)

/-- Reading the sample bytes back, with the key and the value read so far, in
reverse. -/
def read : List Char → List Char → List Char → Option (List (String × String))
  | [], [], [] => some []
  | [], _, _ => none
  | t :: rest, key, value =>
    if t = ';' then
      (read rest [] []).map
        (fun l => (String.mk key.reverse, String.mk value.reverse) :: l)
    else
      match rest with
      | [] => none
      | c :: cs =>
        if t = 'k' then read cs (c :: key) value
        else if t = 'v' then read cs key (c :: value)
        else none

/-- A sample of the JSON texts, for objects of strings: the entries are
written sorted by key (an object with another value is refused), and the bytes
are read back as the object of these entries. -/
def codec : json.Codec :=
  { Marshal := fun m =>
      match flat (json.sortKeys m) with
      | some l => .ok (String.mk (write l))
      | none => .error "json: unsupported value"
    parse := fun b => (read b.data [] []).map (fun l => JSON.object (unflat l)) }

/-- The sample library calls, those on the items of a batch made by
`encoding/json` on the sample texts. -/
def jsonDeps : rest.Deps :=
  rest.Deps.encodingJSON deps lib codec

/-- The object `{"type":"identify","userId":"u1","plan":"pro"}`: `plan` is not
a field of an identify. -/
def identifyWithUnknown : JSON.Object :=
  [("type", .string "identify"), ("userId", .string "u1"), ("plan", .string "pro")]

/-- The alias body `{}`, decoded: neither identifier is given. -/
def aliasNoIds : analytics.Alias :=
  { Typ := "", MessageId := "", PreviousId := "", UserId := "",
    Timestamp := time.Time.zero, Context := none, Integrations := none }

/-- The alias body `{"userId":"u"}`, decoded: the previous identifier is
omitted. -/
def aliasNoPrevious : analytics.Alias :=
  { Typ := "", MessageId := "", PreviousId := "", UserId := "u",
    Timestamp := time.Time.zero, Context := none, Integrations := none }

/-- A shared context of an envelope. -/
def sharedContext : analytics.Context :=
  { fields := [("userId", .string "shared")] }

/-- The options `{ShowMeta: true, ShowData: false, Prefix: "/cdp"}`. -/
def options : rest.Options :=
  { ShowMeta := true, ShowData := false, Prefix := "/cdp" }

end sample

/-! # Theorems -/

/-! ## Facts about the `strings` helpers -/

theorem strings.hasPrefix_iff (s p : String) :
    strings.HasPrefix s p = true ↔ ∃ r : String, s = p ++ r := by
  unfold strings.HasPrefix
  rw [List.isPrefixOf_iff_prefix]
  constructor
  · rintro ⟨t, ht⟩
    exact ⟨String.mk t, String.ext (by simp [ht])⟩
  · rintro ⟨r, rfl⟩
    exact ⟨r.data, by simp⟩

theorem strings.hasSuffix_iff (s p : String) :
    strings.HasSuffix s p = true ↔ ∃ r : String, s = r ++ p := by
  unfold strings.HasSuffix
  rw [List.isSuffixOf_iff_suffix]
  constructor
  · rintro ⟨t, ht⟩
    exact ⟨String.mk t, String.ext (by simp [ht])⟩
  · rintro ⟨r, rfl⟩
    exact ⟨r.data, by simp⟩

/-! ## `Options.validate` -/

/-- C4: `Options.validate` returns no error exactly when `Prefix` is empty, or
starts with "/" and does not end with "/"; "cdp", "/cdp/" and "/" are
rejected, "/cdp" and "" are accepted, whatever the display flags. -/
theorem options_validate_accepts_iff :
    (∀ env : rest.Options,
      env.validate = none ↔
        env.Prefix = "" ∨
          ((∃ r : String, env.Prefix = "/" ++ r) ∧ ¬ ∃ r : String, env.Prefix = r ++ "/")) ∧
    (∀ m dt : Bool,
      (rest.Options.validate { ShowMeta := m, ShowData := dt, Prefix := "cdp" }).isSome = true ∧
      (rest.Options.validate { ShowMeta := m, ShowData := dt, Prefix := "/cdp/" }).isSome = true ∧
      (rest.Options.validate { ShowMeta := m, ShowData := dt, Prefix := "/" }).isSome = true ∧
      rest.Options.validate { ShowMeta := m, ShowData := dt, Prefix := "/cdp" } = none ∧
      rest.Options.validate { ShowMeta := m, ShowData := dt, Prefix := "" } = none) := by
  refine ⟨fun env => ?_, fun m dt => ?_⟩
  · rw [← strings.hasPrefix_iff, ← strings.hasSuffix_iff]
    unfold rest.Options.validate rest.Options.violations
    by_cases h0 : env.Prefix = ""
    · simp [h0]
    · cases hp : strings.HasPrefix env.Prefix "/" <;>
        cases hs : strings.HasSuffix env.Prefix "/" <;> simp [h0]
  · refine ⟨?_, ?_, ?_, ?_, ?_⟩ <;> cases m <;> cases dt <;> decide

/-- C5: `Options.validate` accumulates its violations. For a non-empty
`Prefix` the list holds one entry per broken rule, the missing leading "/"
before the trailing "/", so "cdp/" yields exactly two; every violation carries
the path `["Options","Sources","rest","Prefix"]`; the error is returned exactly
when the list is non-empty, and it carries the whole list. -/
theorem options_validate_accumulates (env : rest.Options) :
    (env.Prefix ≠ "" →
      ((∃ r : String, env.Prefix = "/" ++ r) → (¬ ∃ r : String, env.Prefix = r ++ "/") →
        env.violations = []) ∧
      ((¬ ∃ r : String, env.Prefix = "/" ++ r) → (¬ ∃ r : String, env.Prefix = r ++ "/") →
        env.violations =
          [{ Message := "Source prefix must start with a '/'",
             Path := ["Options", "Sources", "rest", "Prefix"] }]) ∧
      ((∃ r : String, env.Prefix = "/" ++ r) → (∃ r : String, env.Prefix = r ++ "/") →
        env.violations =
          [{ Message := "Source prefix must not end with a '/'",
             Path := ["Options", "Sources", "rest", "Prefix"] }]) ∧
      ((¬ ∃ r : String, env.Prefix = "/" ++ r) → (∃ r : String, env.Prefix = r ++ "/") →
        env.violations =
          [{ Message := "Source prefix must start with a '/'",
             Path := ["Options", "Sources", "rest", "Prefix"] },
           { Message := "Source prefix must not end with a '/'",
             Path := ["Options", "Sources", "rest", "Prefix"] }])) ∧
    (∀ v ∈ env.violations, v.Path = ["Options", "Sources", "rest", "Prefix"]) ∧
    (env.validate = none ↔ env.violations = []) ∧
    (∀ e, env.validate = some e ↔
      (env.violations ≠ [] ∧
        e = { StatusCode := 0, Message := "source/rest: Failed to load",
              Validations := env.violations })) ∧
    (∀ m dt : Bool,
      rest.Options.validate { ShowMeta := m, ShowData := dt, Prefix := "cdp/" } =
        some { StatusCode := 0, Message := "source/rest: Failed to load",
               Validations :=
                 [{ Message := "Source prefix must start with a '/'",
                    Path := ["Options", "Sources", "rest", "Prefix"] },
                  { Message := "Source prefix must not end with a '/'",
                    Path := ["Options", "Sources", "rest", "Prefix"] }] }) := by
  have hviol : env.Prefix ≠ "" →
      env.violations =
        (if strings.HasPrefix env.Prefix "/" = true then []
          else [{ Message := "Source prefix must start with a '/'",
                  Path := ["Options", "Sources", "rest", "Prefix"] }]) ++
        (if strings.HasSuffix env.Prefix "/" = true then
            [{ Message := "Source prefix must not end with a '/'",
               Path := ["Options", "Sources", "rest", "Prefix"] }]
          else []) := by
    intro h0
    unfold rest.Options.violations
    cases hp : strings.HasPrefix env.Prefix "/" <;>
      cases hs : strings.HasSuffix env.Prefix "/" <;> simp [h0, rest.Options.path]
  refine ⟨?_, ?_, ?_, ?_, ?_⟩
  · intro h0
    rw [hviol h0]
    simp only [← strings.hasPrefix_iff, ← strings.hasSuffix_iff]
    cases hp : strings.HasPrefix env.Prefix "/" <;>
      cases hs : strings.HasSuffix env.Prefix "/" <;> simp
  · intro v hv
    by_cases h0 : env.Prefix = ""
    · simp [rest.Options.violations, h0] at hv
    · rw [hviol h0] at hv
      cases hp : strings.HasPrefix env.Prefix "/" <;>
        cases hs : strings.HasSuffix env.Prefix "/" <;> simp [hp, hs] at hv
      all_goals (rcases hv with rfl | rfl <;> rfl)
  · unfold rest.Options.validate
    cases hv : env.violations <;> simp
  · intro e
    unfold rest.Options.validate
    cases hv : env.violations
    · simp
    · simp only [List.length_cons, gt_iff_lt, Nat.zero_lt_succ, ↓reduceIte, Option.some.injEq,
        ne_eq, reduceCtorEq, not_false_eq_true, true_and]
      exact eq_comm
  · intro m dt
    cases m <;> cases dt <;> decide

/-! ## The single-event triggers -/

theorem rest.encodeContext_error (d : rest.Deps) (c : Option analytics.Context)
    (e : errors.Error) (h : rest.encodeContext d c = .error e) : e = rest.badRequest := by
  unfold rest.encodeContext at h
  split at h
  · cases h
  · split at h
    · cases h
    · cases h; rfl

theorem rest.encodeData_error (d : rest.Deps) (m : Option JSON.Object)
    (e : errors.Error) (h : rest.encodeData d m = .error e) : e = rest.badRequest := by
  unfold rest.encodeData at h
  split at h
  · cases h
  · split at h
    · cases h
    · cases h; rfl

/-- What `Identify.marshal` returns, by the outcome of each of its steps. -/
theorem rest.identify_marshal_eq (d : rest.Deps) (now : time.Time) (t : rest.Identify) :
    rest.Identify.marshal d now t =
      match d.IdentifyValidate
          (if t.Timestamp.IsZero then { t.toIdentify with Timestamp := now }
            else t.toIdentify) with
      | some fail => .error (rest.fieldFailure fail)
      | none =>
        match rest.encodeContext d t.Context with
        | .error e => .error e
        | .ok ctx =>
          match rest.encodeData d t.Traits with
          | .error e => .error e
          | .ok data =>
            .ok { Trigger := "identify", Context := ctx, Data := data,
                  Flows := some [flow.Flow.Identify
                    (if t.Timestamp.IsZero then { t.toIdentify with Timestamp := now }
                      else t.toIdentify)] } := by
  unfold rest.Identify.marshal
  cases hz : t.Timestamp.IsZero <;> simp

/-- What `Alias.marshal` returns, by the outcome of each of its steps. -/
theorem rest.alias_marshal_eq (d : rest.Deps) (now : time.Time) (t : rest.Alias) :
    rest.Alias.marshal d now t =
      match d.AliasValidate
          (if t.Timestamp.IsZero then { t.toAlias with Timestamp := now }
            else t.toAlias) with
      | some fail => .error (rest.fieldFailure fail)
      | none =>
        match rest.encodeContext d t.Context with
        | .error e => .error e
        | .ok ctx =>
          .ok { Trigger := "alias", Context := ctx, Data := none,
                Flows := some [flow.Flow.Alias
                  (if t.Timestamp.IsZero then { t.toAlias with Timestamp := now }
                    else t.toAlias)] } := by
  unfold rest.Alias.marshal
  cases hz : t.Timestamp.IsZero <;> simp

/-- What `Page.marshal` returns, by the outcome of each of its steps. -/
theorem rest.page_marshal_eq (d : rest.Deps) (now : time.Time) (t : rest.Page) :
    rest.Page.marshal d now t =
      match d.PageValidate
          (if t.Timestamp.IsZero then { t.toPage with Timestamp := now }
            else t.toPage) with
      | some fail => .error (rest.fieldFailure fail)
      | none =>
        match rest.encodeContext d t.Context with
        | .error e => .error e
        | .ok ctx =>
          match rest.encodeData d t.Properties with
          | .error e => .error e
          | .ok data =>
            .ok { Trigger := "page", Context := ctx, Data := data,
                  Flows := some [flow.Flow.Page
                    (if t.Timestamp.IsZero then { t.toPage with Timestamp := now }
                      else t.toPage)] } := by
  unfold rest.Page.marshal
  cases hz : t.Timestamp.IsZero <;> simp

/-- What `Screen.marshal` returns, by the outcome of each of its steps. -/
theorem rest.screen_marshal_eq (d : rest.Deps) (now : time.Time) (t : rest.Screen) :
    rest.Screen.marshal d now t =
      match d.ScreenValidate
          (if t.Timestamp.IsZero then { t.toScreen with Timestamp := now }
            else t.toScreen) with
      | some fail => .error (rest.fieldFailure fail)
      | none =>
        match rest.encodeContext d t.Context with
        | .error e => .error e
        | .ok ctx =>
          match rest.encodeData d t.Properties with
          | .error e => .error e
          | .ok data =>
            .ok { Trigger := "screen", Context := ctx, Data := data,
                  Flows := some [flow.Flow.Screen
                    (if t.Timestamp.IsZero then { t.toScreen with Timestamp := now }
                      else t.toScreen)] } := by
  unfold rest.Screen.marshal
  cases hz : t.Timestamp.IsZero <;> simp

/-- C1 (the code departs from the claim on the four single-event triggers):
an event returned by a single-event `Extract` has `SentAt` pointing to the
decoded payload's own timestamp, whatever the clock reads, because `marshal`
stamps a copy; so a body without timestamp is accepted with `SentAt` at the
zero time, as for the alias body `{"userId":"u","previousId":"p"}`. Only
`Batch.Extract` stamps the payload it points to. -/
theorem extract_sentAt_single_is_payload_timestamp :
    (∀ now : time.Time,
      rest.Alias.Extract sample.deps now (.ok sample.aliasBody) =
        .ok { Version := "v1.0", Context := none, Data := none,
              SentAt := some time.Time.zero,
              Flows := some [flow.Flow.Alias { sample.aliasBody with Timestamp := now }],
              SubEvents := none }) ∧
    (∀ (d : rest.Deps) (now : time.Time) (p : analytics.Identify) (ev : source.Event),
      rest.Identify.Extract d now (.ok p) = .ok ev → ev.SentAt = some p.Timestamp) ∧
    (∀ (d : rest.Deps) (now : time.Time) (p : analytics.Alias) (ev : source.Event),
      rest.Alias.Extract d now (.ok p) = .ok ev → ev.SentAt = some p.Timestamp) ∧
    (∀ (d : rest.Deps) (now : time.Time) (p : analytics.Page) (ev : source.Event),
      rest.Page.Extract d now (.ok p) = .ok ev → ev.SentAt = some p.Timestamp) ∧
    (∀ (d : rest.Deps) (now : time.Time) (p : analytics.Screen) (ev : source.Event),
      rest.Screen.Extract d now (.ok p) = .ok ev → ev.SentAt = some p.Timestamp) ∧
    (∀ (d : rest.Deps) (now : time.Time) (nows : Nat → time.Time) (payload : rest.Batch)
        (ev : source.Event),
      (rest.Batch.Extract d now nows (.ok payload)).outcome = .ok ev →
        ev.SentAt = some (if payload.Timestamp.IsZero then now else payload.Timestamp)) := by
  refine ⟨fun now => rfl, ?_, ?_, ?_, ?_, ?_⟩
  · intro d now p ev h
    unfold rest.Identify.Extract at h
    simp only at h
    split at h
    · cases h
    · cases h; rfl
  · intro d now p ev h
    unfold rest.Alias.Extract at h
    simp only at h
    split at h
    · cases h
    · cases h; rfl
  · intro d now p ev h
    unfold rest.Page.Extract at h
    simp only at h
    split at h
    · cases h
    · cases h; rfl
  · intro d now p ev h
    unfold rest.Screen.Extract at h
    simp only at h
    split at h
    · cases h
    · cases h; rfl
  · intro d now nows payload ev h
    unfold rest.Batch.Extract at h
    simp only at h
    split at h
    · split at h
      · cases h
      · cases h
        cases hz : payload.Timestamp.IsZero <;> simp [hz]
    · cases h

/-- C6: when the kind's `Validate` reports a field error of type `T` and name
`N` on the payload `marshal` hands to it, `marshal` returns no sub-event but
the failure with status 400, message "Bad Request" and exactly one violation,
whose message is `N ++ " must be set"` and whose path is the pieces of `T`
between the dots followed by `N`, so that its last segment is `N`. Conversely
a failure of `marshal` that carries a violation comes from a field error of
`Validate`. -/
theorem marshal_field_error (d : rest.Deps) (now : time.Time) :
    (∀ (t : rest.Identify) (T N : String) (V : JSON),
      d.IdentifyValidate
          (if t.Timestamp.IsZero then { t.toIdentify with Timestamp := now }
            else t.toIdentify) = some { Typ := T, Name := N, Value := V } →
        rest.Identify.marshal d now t =
          .error { StatusCode := 400, Message := "Bad Request",
                   Validations := [{ Message := N ++ " must be set",
                                     Path := strings.Split T "." ++ [N] }] } ∧
        (strings.Split T "." ++ [N]).getLast? = some N) ∧
    (∀ (t : rest.Alias) (T N : String) (V : JSON),
      d.AliasValidate
          (if t.Timestamp.IsZero then { t.toAlias with Timestamp := now }
            else t.toAlias) = some { Typ := T, Name := N, Value := V } →
        rest.Alias.marshal d now t =
          .error { StatusCode := 400, Message := "Bad Request",
                   Validations := [{ Message := N ++ " must be set",
                                     Path := strings.Split T "." ++ [N] }] } ∧
        (strings.Split T "." ++ [N]).getLast? = some N) ∧
    (∀ (t : rest.Page) (T N : String) (V : JSON),
      d.PageValidate
          (if t.Timestamp.IsZero then { t.toPage with Timestamp := now }
            else t.toPage) = some { Typ := T, Name := N, Value := V } →
        rest.Page.marshal d now t =
          .error { StatusCode := 400, Message := "Bad Request",
                   Validations := [{ Message := N ++ " must be set",
                                     Path := strings.Split T "." ++ [N] }] } ∧
        (strings.Split T "." ++ [N]).getLast? = some N) ∧
    (∀ (t : rest.Screen) (T N : String) (V : JSON),
      d.ScreenValidate
          (if t.Timestamp.IsZero then { t.toScreen with Timestamp := now }
            else t.toScreen) = some { Typ := T, Name := N, Value := V } →
        rest.Screen.marshal d now t =
          .error { StatusCode := 400, Message := "Bad Request",
                   Validations := [{ Message := N ++ " must be set",
                                     Path := strings.Split T "." ++ [N] }] } ∧
        (strings.Split T "." ++ [N]).getLast? = some N) ∧
    (∀ (t : rest.Identify) (e : errors.Error),
      rest.Identify.marshal d now t = .error e → e.Validations ≠ [] →
        ∃ fail, d.IdentifyValidate
          (if t.Timestamp.IsZero then { t.toIdentify with Timestamp := now }
            else t.toIdentify) = some fail) ∧
    (∀ (t : rest.Alias) (e : errors.Error),
      rest.Alias.marshal d now t = .error e → e.Validations ≠ [] →
        ∃ fail, d.AliasValidate
          (if t.Timestamp.IsZero then { t.toAlias with Timestamp := now }
            else t.toAlias) = some fail) ∧
    (∀ (t : rest.Page) (e : errors.Error),
      rest.Page.marshal d now t = .error e → e.Validations ≠ [] →
        ∃ fail, d.PageValidate
          (if t.Timestamp.IsZero then { t.toPage with Timestamp := now }
            else t.toPage) = some fail) ∧
    (∀ (t : rest.Screen) (e : errors.Error),
      rest.Screen.marshal d now t = .error e → e.Validations ≠ [] →
        ∃ fail, d.ScreenValidate
          (if t.Timestamp.IsZero then { t.toScreen with Timestamp := now }
            else t.toScreen) = some fail) := by
  refine ⟨?_, ?_, ?_, ?_, ?_, ?_, ?_, ?_⟩
  · intro t T N V h
    rw [rest.identify_marshal_eq, h]
    exact ⟨rfl, by simp⟩
  · intro t T N V h
    rw [rest.alias_marshal_eq, h]
    exact ⟨rfl, by simp⟩
  · intro t T N V h
    rw [rest.page_marshal_eq, h]
    exact ⟨rfl, by simp⟩
  · intro t T N V h
    rw [rest.screen_marshal_eq, h]
    exact ⟨rfl, by simp⟩
  · intro t e h hv
    rw [rest.identify_marshal_eq] at h
    split at h
    · exact ⟨_, by assumption⟩
    · exfalso
      split at h
      · cases h
        exact hv (by rw [rest.encodeContext_error d _ e (by assumption)]; rfl)
      · split at h
        · cases h
          exact hv (by rw [rest.encodeData_error d _ e (by assumption)]; rfl)
        · cases h
  · intro t e h hv
    rw [rest.alias_marshal_eq] at h
    split at h
    · exact ⟨_, by assumption⟩
    · exfalso
      split at h
      · cases h
        exact hv (by rw [rest.encodeContext_error d _ e (by assumption)]; rfl)
      · cases h
  · intro t e h hv
    rw [rest.page_marshal_eq] at h
    split at h
    · exact ⟨_, by assumption⟩
    · exfalso
      split at h
      · cases h
        exact hv (by rw [rest.encodeContext_error d _ e (by assumption)]; rfl)
      · split at h
        · cases h
          exact hv (by rw [rest.encodeData_error d _ e (by assumption)]; rfl)
        · cases h
  · intro t e h hv
    rw [rest.screen_marshal_eq] at h
    split at h
    · exact ⟨_, by assumption⟩
    · exfalso
      split at h
      · cases h
        exact hv (by rw [rest.encodeContext_error d _ e (by assumption)]; rfl)
      · split at h
        · cases h
          exact hv (by rw [rest.encodeData_error d _ e (by assumption)]; rfl)
        · cases h

/-- C6, at the alias body `{"previousId":"p"}`: the failure names `UserId` at
the path `["analytics","Alias","UserId"]`. -/
theorem marshal_field_error_witness :
    rest.Alias.marshal sample.deps sample.now { sample.aliasNoUser with env := none } =
      .error { StatusCode := 400, Message := "Bad Request",
               Validations := [{ Message := "UserId must be set",
                                 Path := ["analytics", "Alias", "UserId"] }] } :=
  ((marshal_field_error sample.deps sample.now).2.1
    { sample.aliasNoUser with env := none } "analytics.Alias" "UserId" (.string "") rfl).1

theorem rest.encodeContext_ok (d : rest.Deps) (c : Option analytics.Context)
    (x : Option Bytes) (h : rest.encodeContext d c = .ok x) :
    (c = none → x = none) ∧
      (∀ c', c = some c' → ∃ b, d.ContextMarshalJSON c' = .ok b ∧ x = some b) := by
  unfold rest.encodeContext at h
  split at h
  · cases h
    exact ⟨fun _ => rfl, fun _ hc => by cases hc⟩
  · split at h
    · cases h
      refine ⟨fun hc => (by cases hc), fun c' hc => ?_⟩
      cases hc
      exact ⟨_, by assumption, rfl⟩
    · cases h

theorem rest.encodeData_ok (d : rest.Deps) (m : Option JSON.Object)
    (x : Option Bytes) (h : rest.encodeData d m = .ok x) :
    (m = none → x = none) ∧
      (∀ m', m = some m' → ∃ b, d.Marshal m' = .ok b ∧ x = some b) := by
  unfold rest.encodeData at h
  split at h
  · cases h
    exact ⟨fun _ => rfl, fun _ hc => by cases hc⟩
  · split at h
    · cases h
      refine ⟨fun hc => (by cases hc), fun c' hc => ?_⟩
      cases hc
      exact ⟨_, by assumption, rfl⟩
    · cases h

/-- A sub-event of `Identify.marshal`: every step succeeded. -/
theorem rest.identify_marshal_ok (d : rest.Deps) (now : time.Time) (t : rest.Identify)
    (s : source.SubEvent) (h : rest.Identify.marshal d now t = .ok s) :
    d.IdentifyValidate
        (if t.Timestamp.IsZero then { t.toIdentify with Timestamp := now }
          else t.toIdentify) = none ∧
    ∃ ctx data, rest.encodeContext d t.Context = .ok ctx ∧
      rest.encodeData d t.Traits = .ok data ∧
      s = { Trigger := "identify", Context := ctx, Data := data,
            Flows := some [flow.Flow.Identify
              (if t.Timestamp.IsZero then { t.toIdentify with Timestamp := now }
                else t.toIdentify)] } := by
  rw [rest.identify_marshal_eq] at h
  split at h
  · cases h
  · split at h
    · cases h
    · split at h
      · cases h
      · cases h
        exact ⟨by assumption, _, _, by assumption, by assumption, rfl⟩

/-- A sub-event of `Alias.marshal`: every step succeeded. -/
theorem rest.alias_marshal_ok (d : rest.Deps) (now : time.Time) (t : rest.Alias)
    (s : source.SubEvent) (h : rest.Alias.marshal d now t = .ok s) :
    d.AliasValidate
        (if t.Timestamp.IsZero then { t.toAlias with Timestamp := now }
          else t.toAlias) = none ∧
    ∃ ctx, rest.encodeContext d t.Context = .ok ctx ∧
      s = { Trigger := "alias", Context := ctx, Data := none,
            Flows := some [flow.Flow.Alias
              (if t.Timestamp.IsZero then { t.toAlias with Timestamp := now }
                else t.toAlias)] } := by
  rw [rest.alias_marshal_eq] at h
  split at h
  · cases h
  · split at h
    · cases h
    · cases h
      exact ⟨by assumption, _, by assumption, rfl⟩

/-- A sub-event of `Page.marshal`: every step succeeded. -/
theorem rest.page_marshal_ok (d : rest.Deps) (now : time.Time) (t : rest.Page)
    (s : source.SubEvent) (h : rest.Page.marshal d now t = .ok s) :
    d.PageValidate
        (if t.Timestamp.IsZero then { t.toPage with Timestamp := now }
          else t.toPage) = none ∧
    ∃ ctx data, rest.encodeContext d t.Context = .ok ctx ∧
      rest.encodeData d t.Properties = .ok data ∧
      s = { Trigger := "page", Context := ctx, Data := data,
            Flows := some [flow.Flow.Page
              (if t.Timestamp.IsZero then { t.toPage with Timestamp := now }
                else t.toPage)] } := by
  rw [rest.page_marshal_eq] at h
  split at h
  · cases h
  · split at h
    · cases h
    · split at h
      · cases h
      · cases h
        exact ⟨by assumption, _, _, by assumption, by assumption, rfl⟩

/-- A sub-event of `Screen.marshal`: every step succeeded. -/
theorem rest.screen_marshal_ok (d : rest.Deps) (now : time.Time) (t : rest.Screen)
    (s : source.SubEvent) (h : rest.Screen.marshal d now t = .ok s) :
    d.ScreenValidate
        (if t.Timestamp.IsZero then { t.toScreen with Timestamp := now }
          else t.toScreen) = none ∧
    ∃ ctx data, rest.encodeContext d t.Context = .ok ctx ∧
      rest.encodeData d t.Properties = .ok data ∧
      s = { Trigger := "screen", Context := ctx, Data := data,
            Flows := some [flow.Flow.Screen
              (if t.Timestamp.IsZero then { t.toScreen with Timestamp := now }
                else t.toScreen)] } := by
  rw [rest.screen_marshal_eq] at h
  split at h
  · cases h
  · split at h
    · cases h
    · split at h
      · cases h
      · cases h
        exact ⟨by assumption, _, _, by assumption, by assumption, rfl⟩

/-- C7: an event returned by a trigger has exactly one of `Flows` and
`SubEvents` set, never both. A single-event `Extract` (identify, alias, page,
screen) returns a `Flows` list of one flow and a nil `SubEvents`;
`Batch.Extract` returns a non-nil `SubEvents` list and a nil `Flows`. -/
theorem extract_flows_or_subEvents (d : rest.Deps) (now : time.Time) :
    (∀ decoded ev, rest.Identify.Extract d now decoded = .ok ev →
      ev.SubEvents = none ∧ ∃ f, ev.Flows = some [f]) ∧
    (∀ decoded ev, rest.Alias.Extract d now decoded = .ok ev →
      ev.SubEvents = none ∧ ∃ f, ev.Flows = some [f]) ∧
    (∀ decoded ev, rest.Page.Extract d now decoded = .ok ev →
      ev.SubEvents = none ∧ ∃ f, ev.Flows = some [f]) ∧
    (∀ decoded ev, rest.Screen.Extract d now decoded = .ok ev →
      ev.SubEvents = none ∧ ∃ f, ev.Flows = some [f]) ∧
    (∀ nows decoded ev, (rest.Batch.Extract d now nows decoded).outcome = .ok ev →
      ev.Flows = none ∧ ∃ l, ev.SubEvents = some l) := by
  refine ⟨?_, ?_, ?_, ?_, ?_⟩
  · intro decoded ev h
    unfold rest.Identify.Extract at h
    split at h
    · cases h
    · simp only at h
      split at h
      · cases h
      · rename_i hm
        obtain ⟨-, ctx, data, -, -, rfl⟩ := rest.identify_marshal_ok _ _ _ _ hm
        cases h
        exact ⟨rfl, _, rfl⟩
  · intro decoded ev h
    unfold rest.Alias.Extract at h
    split at h
    · cases h
    · simp only at h
      split at h
      · cases h
      · rename_i hm
        obtain ⟨-, ctx, -, rfl⟩ := rest.alias_marshal_ok _ _ _ _ hm
        cases h
        exact ⟨rfl, _, rfl⟩
  · intro decoded ev h
    unfold rest.Page.Extract at h
    split at h
    · cases h
    · simp only at h
      split at h
      · cases h
      · rename_i hm
        obtain ⟨-, ctx, data, -, -, rfl⟩ := rest.page_marshal_ok _ _ _ _ hm
        cases h
        exact ⟨rfl, _, rfl⟩
  · intro decoded ev h
    unfold rest.Screen.Extract at h
    split at h
    · cases h
    · simp only at h
      split at h
      · cases h
      · rename_i hm
        obtain ⟨-, ctx, data, -, -, rfl⟩ := rest.screen_marshal_ok _ _ _ _ hm
        cases h
        exact ⟨rfl, _, rfl⟩
  · intro nows decoded ev h
    unfold rest.Batch.Extract at h
    split at h
    · cases h
    · simp only at h
      split at h
      · split at h
        · cases h
        · cases h
          exact ⟨rfl, _, rfl⟩
      · cases h

/-- C8: a sub-event returned by `marshal` carries the kind's name as its label
and exactly one flow, whose payload equals the input payload field by field,
except that a zero timestamp is replaced by the reading of the clock (a
non-zero timestamp is kept); and `marshal` does return a sub-event whenever
validation and the encodings succeed. -/
theorem marshal_flow_carries_payload (d : rest.Deps) (now : time.Time) :
    (∀ (t : rest.Identify) (s : source.SubEvent), rest.Identify.marshal d now t = .ok s →
      s.Trigger = "identify" ∧ s.Trigger = rest.Identify.String t ∧
      ∃ p, s.Flows = some [flow.Flow.Identify p] ∧
        p.Typ = t.Typ ∧ p.MessageId = t.MessageId ∧ p.AnonymousId = t.AnonymousId ∧
        p.UserId = t.UserId ∧ p.Context = t.Context ∧ p.Traits = t.Traits ∧
        p.Integrations = t.Integrations ∧
        p.Timestamp = (if t.Timestamp.IsZero then now else t.Timestamp)) ∧
    (∀ (t : rest.Alias) (s : source.SubEvent), rest.Alias.marshal d now t = .ok s →
      s.Trigger = "alias" ∧ s.Trigger = rest.Alias.String t ∧
      ∃ p, s.Flows = some [flow.Flow.Alias p] ∧
        p.Typ = t.Typ ∧ p.MessageId = t.MessageId ∧ p.PreviousId = t.PreviousId ∧
        p.UserId = t.UserId ∧ p.Context = t.Context ∧
        p.Integrations = t.Integrations ∧
        p.Timestamp = (if t.Timestamp.IsZero then now else t.Timestamp)) ∧
    (∀ (t : rest.Page) (s : source.SubEvent), rest.Page.marshal d now t = .ok s →
      s.Trigger = "page" ∧ s.Trigger = rest.Page.String t ∧
      ∃ p, s.Flows = some [flow.Flow.Page p] ∧
        p.Typ = t.Typ ∧ p.MessageId = t.MessageId ∧ p.AnonymousId = t.AnonymousId ∧
        p.UserId = t.UserId ∧ p.Name = t.Name ∧ p.Context = t.Context ∧
        p.Properties = t.Properties ∧ p.Integrations = t.Integrations ∧
        p.Timestamp = (if t.Timestamp.IsZero then now else t.Timestamp)) ∧
    (∀ (t : rest.Screen) (s : source.SubEvent), rest.Screen.marshal d now t = .ok s →
      s.Trigger = "screen" ∧ s.Trigger = rest.Screen.String t ∧
      ∃ p, s.Flows = some [flow.Flow.Screen p] ∧
        p.Typ = t.Typ ∧ p.MessageId = t.MessageId ∧ p.AnonymousId = t.AnonymousId ∧
        p.UserId = t.UserId ∧ p.Name = t.Name ∧ p.Context = t.Context ∧
        p.Properties = t.Properties ∧ p.Integrations = t.Integrations ∧
        p.Timestamp = (if t.Timestamp.IsZero then now else t.Timestamp)) ∧
    (∀ (t : rest.Identify) (ctx data : Option Bytes),
      d.IdentifyValidate
          (if t.Timestamp.IsZero then { t.toIdentify with Timestamp := now }
            else t.toIdentify) = none →
      rest.encodeContext d t.Context = .ok ctx → rest.encodeData d t.Traits = .ok data →
        ∃ s, rest.Identify.marshal d now t = .ok s) ∧
    (∀ (t : rest.Alias) (ctx : Option Bytes),
      d.AliasValidate
          (if t.Timestamp.IsZero then { t.toAlias with Timestamp := now }
            else t.toAlias) = none →
      rest.encodeContext d t.Context = .ok ctx →
        ∃ s, rest.Alias.marshal d now t = .ok s) ∧
    (∀ (t : rest.Page) (ctx data : Option Bytes),
      d.PageValidate
          (if t.Timestamp.IsZero then { t.toPage with Timestamp := now }
            else t.toPage) = none →
      rest.encodeContext d t.Context = .ok ctx → rest.encodeData d t.Properties = .ok data →
        ∃ s, rest.Page.marshal d now t = .ok s) ∧
    (∀ (t : rest.Screen) (ctx data : Option Bytes),
      d.ScreenValidate
          (if t.Timestamp.IsZero then { t.toScreen with Timestamp := now }
            else t.toScreen) = none →
      rest.encodeContext d t.Context = .ok ctx → rest.encodeData d t.Properties = .ok data →
        ∃ s, rest.Screen.marshal d now t = .ok s) := by
  refine ⟨?_, ?_, ?_, ?_, ?_, ?_, ?_, ?_⟩
  · intro t s h
    obtain ⟨-, ctx, data, -, -, rfl⟩ := rest.identify_marshal_ok _ _ _ _ h
    refine ⟨rfl, rfl, _, rfl, ?_⟩
    cases hz : t.Timestamp.IsZero <;> simp
  · intro t s h
    obtain ⟨-, ctx, -, rfl⟩ := rest.alias_marshal_ok _ _ _ _ h
    refine ⟨rfl, rfl, _, rfl, ?_⟩
    cases hz : t.Timestamp.IsZero <;> simp
  · intro t s h
    obtain ⟨-, ctx, data, -, -, rfl⟩ := rest.page_marshal_ok _ _ _ _ h
    refine ⟨rfl, rfl, _, rfl, ?_⟩
    cases hz : t.Timestamp.IsZero <;> simp
  · intro t s h
    obtain ⟨-, ctx, data, -, -, rfl⟩ := rest.screen_marshal_ok _ _ _ _ h
    refine ⟨rfl, rfl, _, rfl, ?_⟩
    cases hz : t.Timestamp.IsZero <;> simp
  · intro t ctx data hv hc hd
    rw [rest.identify_marshal_eq, hv]
    simp only [hc, hd]
    exact ⟨_, rfl⟩
  · intro t ctx hv hc
    rw [rest.alias_marshal_eq, hv]
    simp only [hc]
    exact ⟨_, rfl⟩
  · intro t ctx data hv hc hd
    rw [rest.page_marshal_eq, hv]
    simp only [hc, hd]
    exact ⟨_, rfl⟩
  · intro t ctx data hv hc hd
    rw [rest.screen_marshal_eq, hv]
    simp only [hc, hd]
    exact ⟨_, rfl⟩

/-- C8, at the identify body `{"userId":"u"}`: the sub-event is labelled
"identify" and its one flow carries the payload, stamped with the reading of
the clock. -/
theorem marshal_flow_carries_payload_witness :
    rest.Identify.marshal sample.deps sample.now { sample.identifyBody with env := none } =
        .ok { Trigger := "identify", Context := none, Data := none,
              Flows := some [flow.Flow.Identify
                { sample.identifyBody with Timestamp := sample.now }] } ∧
      ("identify" = "identify" ∧
        "identify" = rest.Identify.String { sample.identifyBody with env := none } ∧
        ∃ p, some [flow.Flow.Identify { sample.identifyBody with Timestamp := sample.now }] =
            some [flow.Flow.Identify p] ∧
          p.Typ = "" ∧ p.MessageId = "" ∧ p.AnonymousId = "" ∧ p.UserId = "u" ∧
          p.Context = none ∧ p.Traits = none ∧ p.Integrations = none ∧
          p.Timestamp = (if time.Time.zero.IsZero then sample.now else time.Time.zero)) :=
  ⟨rfl, (marshal_flow_carries_payload sample.deps sample.now).1
    { sample.identifyBody with env := none } _ rfl⟩

/-- C9: in a sub-event returned by `marshal`, an absent context gives nil
`Context` bytes and an absent data map (traits of identify, properties of page
and screen) gives nil `Data` bytes, not the bytes of an empty object; a present
context or map gives exactly the bytes of its JSON encoding. An alias
sub-event never has `Data` bytes. When validation passes and both are absent,
`marshal` does return such a sub-event. -/
theorem marshal_context_and_data_bytes (d : rest.Deps) (now : time.Time) :
    (∀ (t : rest.Identify) (s : source.SubEvent), rest.Identify.marshal d now t = .ok s →
      (t.Context = none → s.Context = none ∧ s.Context ≠ some "\x7b\x7d") ∧
      (∀ c, t.Context = some c →
        ∃ b, d.ContextMarshalJSON c = .ok b ∧ s.Context = some b) ∧
      (t.Traits = none → s.Data = none ∧ s.Data ≠ some "\x7b\x7d") ∧
      (∀ m, t.Traits = some m → ∃ b, d.Marshal m = .ok b ∧ s.Data = some b)) ∧
    (∀ (t : rest.Alias) (s : source.SubEvent), rest.Alias.marshal d now t = .ok s →
      (t.Context = none → s.Context = none ∧ s.Context ≠ some "\x7b\x7d") ∧
      (∀ c, t.Context = some c →
        ∃ b, d.ContextMarshalJSON c = .ok b ∧ s.Context = some b) ∧
      s.Data = none) ∧
    (∀ (t : rest.Page) (s : source.SubEvent), rest.Page.marshal d now t = .ok s →
      (t.Context = none → s.Context = none ∧ s.Context ≠ some "\x7b\x7d") ∧
      (∀ c, t.Context = some c →
        ∃ b, d.ContextMarshalJSON c = .ok b ∧ s.Context = some b) ∧
      (t.Properties = none → s.Data = none ∧ s.Data ≠ some "\x7b\x7d") ∧
      (∀ m, t.Properties = some m → ∃ b, d.Marshal m = .ok b ∧ s.Data = some b)) ∧
    (∀ (t : rest.Screen) (s : source.SubEvent), rest.Screen.marshal d now t = .ok s →
      (t.Context = none → s.Context = none ∧ s.Context ≠ some "\x7b\x7d") ∧
      (∀ c, t.Context = some c →
        ∃ b, d.ContextMarshalJSON c = .ok b ∧ s.Context = some b) ∧
      (t.Properties = none → s.Data = none ∧ s.Data ≠ some "\x7b\x7d") ∧
      (∀ m, t.Properties = some m → ∃ b, d.Marshal m = .ok b ∧ s.Data = some b)) ∧
    (∀ t : rest.Identify,
      d.IdentifyValidate
          (if t.Timestamp.IsZero then { t.toIdentify with Timestamp := now }
            else t.toIdentify) = none →
      t.Context = none → t.Traits = none →
        ∃ s, rest.Identify.marshal d now t = .ok s ∧ s.Context = none ∧ s.Data = none) ∧
    (∀ t : rest.Alias,
      d.AliasValidate
          (if t.Timestamp.IsZero then { t.toAlias with Timestamp := now }
            else t.toAlias) = none →
      t.Context = none →
        ∃ s, rest.Alias.marshal d now t = .ok s ∧ s.Context = none ∧ s.Data = none) ∧
    (∀ t : rest.Page,
      d.PageValidate
          (if t.Timestamp.IsZero then { t.toPage with Timestamp := now }
            else t.toPage) = none →
      t.Context = none → t.Properties = none →
        ∃ s, rest.Page.marshal d now t = .ok s ∧ s.Context = none ∧ s.Data = none) ∧
    (∀ t : rest.Screen,
      d.ScreenValidate
          (if t.Timestamp.IsZero then { t.toScreen with Timestamp := now }
            else t.toScreen) = none →
      t.Context = none → t.Properties = none →
        ∃ s, rest.Screen.marshal d now t = .ok s ∧ s.Context = none ∧ s.Data = none) := by
  have absent : ∀ x : Option Bytes, x = none → x = none ∧ x ≠ some "\x7b\x7d" := by
    rintro x rfl
    exact ⟨rfl, by simp⟩
  refine ⟨?_, ?_, ?_, ?_, ?_, ?_, ?_, ?_⟩
  · intro t s h
    obtain ⟨-, ctx, data, hc, hd, rfl⟩ := rest.identify_marshal_ok _ _ _ _ h
    obtain ⟨c1, c2⟩ := rest.encodeContext_ok _ _ _ hc
    obtain ⟨d1, d2⟩ := rest.encodeData_ok _ _ _ hd
    exact ⟨fun h0 => absent _ (c1 h0), c2, fun h0 => absent _ (d1 h0), d2⟩
  · intro t s h
    obtain ⟨-, ctx, hc, rfl⟩ := rest.alias_marshal_ok _ _ _ _ h
    obtain ⟨c1, c2⟩ := rest.encodeContext_ok _ _ _ hc
    exact ⟨fun h0 => absent _ (c1 h0), c2, rfl⟩
  · intro t s h
    obtain ⟨-, ctx, data, hc, hd, rfl⟩ := rest.page_marshal_ok _ _ _ _ h
    obtain ⟨c1, c2⟩ := rest.encodeContext_ok _ _ _ hc
    obtain ⟨d1, d2⟩ := rest.encodeData_ok _ _ _ hd
    exact ⟨fun h0 => absent _ (c1 h0), c2, fun h0 => absent _ (d1 h0), d2⟩
  · intro t s h
    obtain ⟨-, ctx, data, hc, hd, rfl⟩ := rest.screen_marshal_ok _ _ _ _ h
    obtain ⟨c1, c2⟩ := rest.encodeContext_ok _ _ _ hc
    obtain ⟨d1, d2⟩ := rest.encodeData_ok _ _ _ hd
    exact ⟨fun h0 => absent _ (c1 h0), c2, fun h0 => absent _ (d1 h0), d2⟩
  · intro t hv hc hd
    rw [rest.identify_marshal_eq, hv, hc, hd]
    exact ⟨_, rfl, rfl, rfl⟩
  · intro t hv hc
    rw [rest.alias_marshal_eq, hv, hc]
    exact ⟨_, rfl, rfl, rfl⟩
  · intro t hv hc hd
    rw [rest.page_marshal_eq, hv, hc, hd]
    exact ⟨_, rfl, rfl, rfl⟩
  · intro t hv hc hd
    rw [rest.screen_marshal_eq, hv, hc, hd]
    exact ⟨_, rfl, rfl, rfl⟩

/-! ## The batch trigger -/

/-- The `switch` of the batch loop runs the kind's validate and normalize
exactly on the six supported kinds. -/
theorem rest.dispatch_eq (d : rest.Deps) (now : time.Time) (k : String) (b : Bytes) :
    rest.Batch.dispatch d now k b =
      if k ∈ rest.Batch.kinds then some (rest.Batch.normalize d now k b) else none := by
  unfold rest.Batch.dispatch rest.Batch.kinds rest.Batch.normalize
  by_cases h1 : k = "identify"
  · subst h1; simp
  by_cases h2 : k = "track"
  · subst h2; simp
  by_cases h3 : k = "group"
  · subst h3; simp
  by_cases h4 : k = "alias"
  · subst h4; simp
  by_cases h5 : k = "page"
  · subst h5; simp
  by_cases h6 : k = "screen"
  · subst h6; simp
  simp [h1, h2, h3, h4, h5, h6]

/-- One iteration of the batch loop appends the item's contribution, if any,
to the sub-events. -/
theorem rest.body_subEvents (d : rest.Deps) (now : time.Time) (ev : JSON)
    (st : List source.SubEvent × List errors.Error) :
    (rest.Batch.body d now ev st).1 = st.1 ++ (rest.Batch.contribution d now ev).toList := by
  unfold rest.Batch.body rest.Batch.contribution
  cases ev with
  | object event =>
    simp only [rest.dispatch_eq]
    cases hm : d.Marshal event with
    | error e =>
      simp only
      cases hl : List.lookup "type" event with
      | none => simp
      | some v =>
        cases v <;> simp
    | ok b =>
      simp only
      cases hl : List.lookup "type" event with
      | none => simp
      | some v =>
        cases v <;> simp
        rename_i k
        by_cases hk : k ∈ rest.Batch.kinds
        · simp only [hk, if_true]
          cases hn : rest.Batch.normalize d now k b <;> simp
        · simp [hk]
  | _ => simp

/-- The batch loop appends, in order, the contributions of the items. -/
theorem rest.loop_subEvents (d : rest.Deps) (nows : Nat → time.Time) (items : List JSON) :
    ∀ (i : Nat) (st : List source.SubEvent × List errors.Error),
      (rest.Batch.loop d nows i items st).1 =
        st.1 ++ (items.enumFrom i).filterMap
          (fun p => rest.Batch.contribution d (nows p.1) p.2) := by
  induction items with
  | nil => intro i st; simp [rest.Batch.loop]
  | cons ev events ih =>
    intro i st
    rw [rest.Batch.loop, ih, rest.body_subEvents, List.enumFrom_cons, List.filterMap_cons]
    cases hc : rest.Batch.contribution d (nows i) ev <;> simp

/-- How `Batch.Extract` ends on an envelope whose `batch` is an array. -/
theorem rest.batch_extract_array (d : rest.Deps) (now : time.Time) (nows : Nat → time.Time)
    (env : Option rest.Options) (ctx : Option analytics.Context) (ts : time.Time)
    (items : List JSON) :
    (rest.Batch.Extract d now nows
        (.ok { env := env, Events := .array items, Context := ctx, Timestamp := ts })).outcome =
      match rest.encodeContext d ctx with
      | .error e => .fail e
      | .ok c =>
        .ok { Version := "v1.0", Context := c, Data := none,
              SentAt := some (if ts.IsZero then now else ts), Flows := none,
              SubEvents := some (rest.Batch.accepted d nows items) } := by
  have hl := rest.loop_subEvents d nows items 0 ([], [])
  simp only [List.nil_append] at hl
  unfold rest.Batch.Extract rest.Batch.accepted
  cases hz : ts.IsZero <;> simp only [hz] <;>
    cases hc : rest.encodeContext d ctx <;> simp [hc, hl, List.enum]

/-- C2: on an envelope whose `batch` is a sequence of items, the `SubEvents`
of the event `Batch.Extract` returns are the contributions of the items in
their order (a filter-map of the sequence, item `i` being processed at the
clock reading `nows i`). An item contributes the sub-event `s` exactly when it
is an object whose `type` is a string naming one of identify, track, group,
alias, page, screen and the per-item processing of that kind (re-encoding the
object, decoding it against the kind, then the kind's `marshal`) returns `s`;
so the number of sub-events is the number of such items. -/
theorem batch_subEvents_filter_map (d : rest.Deps) (now : time.Time) (nows : Nat → time.Time)
    (env : Option rest.Options) (ctx : Option analytics.Context) (ts : time.Time)
    (items : List JSON) :
    (∀ ev, (rest.Batch.Extract d now nows
        (.ok { env := env, Events := .array items, Context := ctx, Timestamp := ts })).outcome
          = .ok ev →
      ev.SubEvents =
        some (items.enum.filterMap (fun p => rest.Batch.contribution d (nows p.1) p.2))) ∧
    (∀ c, rest.encodeContext d ctx = .ok c →
      ∃ ev, (rest.Batch.Extract d now nows
        (.ok { env := env, Events := .array items, Context := ctx, Timestamp := ts })).outcome
          = .ok ev ∧
        ev.SubEvents =
          some (items.enum.filterMap (fun p => rest.Batch.contribution d (nows p.1) p.2))) ∧
    (∀ (t : time.Time) (item : JSON) (s : source.SubEvent),
      rest.Batch.contribution d t item = some s ↔
        ∃ fields kind b, item = .object fields ∧
          fields.lookup "type" = some (.string kind) ∧
          kind ∈ ["identify", "track", "group", "alias", "page", "screen"] ∧
          d.Marshal fields = .ok b ∧
          rest.Batch.normalize d t kind b = .ok s) ∧
    (∀ (t : time.Time) (b : Bytes),
      rest.Batch.normalize d t "identify" b =
        rest.Identify.marshal d t { d.UnmarshalIdentify b with env := none } ∧
      rest.Batch.normalize d t "track" b = d.TrackMarshal t b ∧
      rest.Batch.normalize d t "group" b = d.GroupMarshal t b ∧
      rest.Batch.normalize d t "alias" b =
        rest.Alias.marshal d t { d.UnmarshalAlias b with env := none } ∧
      rest.Batch.normalize d t "page" b =
        rest.Page.marshal d t { d.UnmarshalPage b with env := none } ∧
      rest.Batch.normalize d t "screen" b =
        rest.Screen.marshal d t { d.UnmarshalScreen b with env := none }) ∧
    (items.enum.filterMap (fun p => rest.Batch.contribution d (nows p.1) p.2)).length =
      items.enum.countP (fun p => (rest.Batch.contribution d (nows p.1) p.2).isSome) := by
  have hx := rest.batch_extract_array d now nows env ctx ts items
  refine ⟨?_, ?_, ?_, ?_, ?_⟩
  · intro ev h
    rw [hx] at h
    split at h
    · cases h
    · cases h; rfl
  · intro c hc
    rw [hx, hc]
    exact ⟨_, rfl, rfl⟩
  · intro t item s
    constructor
    · intro h
      unfold rest.Batch.contribution at h
      split at h
      · rename_i fields
        split at h
        · rename_i kind hl
          split at h
          · rename_i hk
            split at h
            · rename_i b hm
              split at h
              · rename_i s' hn
                cases h
                exact ⟨fields, kind, b, rfl, hl, hk, hm, hn⟩
              · cases h
            · cases h
          · cases h
        · cases h
      · cases h
    · rintro ⟨fields, kind, b, rfl, hl, hk, hm, hn⟩
      have hk' : kind ∈ rest.Batch.kinds := hk
      simp [rest.Batch.contribution, hl, hk', hm, hn]
  · intro t b
    exact ⟨rfl, rfl, rfl, rfl, rfl, rfl⟩
  · exact List.length_filterMap_eq_countP _ _

/-- C2, at the body `{"batch":[{"type":"identify","userId":"u1"},
{"type":"bogus"},{"type":"identify"},7,{"type":"page","userId":"u2"}]}`: five
items, two sub-events, the identify of `u1` before the page of `u2`. -/
theorem batch_subEvents_filter_map_witness :
    ∃ ev, (rest.Batch.Extract sample.deps sample.now sample.nows
        (.ok { env := none, Events := .array sample.items, Context := none,
               Timestamp := time.Time.zero })).outcome = .ok ev ∧
      ev.SubEvents =
        some (sample.items.enum.filterMap
          (fun p => rest.Batch.contribution sample.deps (sample.nows p.1) p.2)) ∧
      sample.items.enum.filterMap
          (fun p => rest.Batch.contribution sample.deps (sample.nows p.1) p.2) =
        [{ Trigger := "identify", Context := none, Data := none,
           Flows := some [flow.Flow.Identify
             { sample.UnmarshalIdentify "u1" with Timestamp := sample.nows 0 }] },
         { Trigger := "page", Context := none, Data := none,
           Flows := some [flow.Flow.Page
             { sample.UnmarshalPage "u2" with Timestamp := sample.nows 4 }] }] := by
  obtain ⟨ev, h1, h2⟩ :=
    (batch_subEvents_filter_map sample.deps sample.now sample.nows none none
      time.Time.zero sample.items).2.1 none rfl
  exact ⟨ev, h1, h2, rfl⟩

/-- C3 (the code departs from the claim): `Batch.Extract` panics on every
decoded envelope whose `batch` is not an array, as on the body `{}` where the
key is absent, because of the unchecked assertion
`payload.Events.([]interface{})`; on an array it never panics. -/
theorem batch_extract_panics_without_array (d : rest.Deps) (now : time.Time)
    (nows : Nat → time.Time) (env : Option rest.Options) (ctx : Option analytics.Context)
    (ts : time.Time) :
    (rest.Batch.Extract sample.deps sample.now sample.nows (.ok sample.batchAbsent)).outcome
      = .panic ∧
    (rest.Batch.Extract d now nows
      (.ok { env := env, Events := .null, Context := ctx, Timestamp := ts })).outcome
        = .panic ∧
    (∀ b, (rest.Batch.Extract d now nows
      (.ok { env := env, Events := .bool b, Context := ctx, Timestamp := ts })).outcome
        = .panic) ∧
    (∀ q, (rest.Batch.Extract d now nows
      (.ok { env := env, Events := .number q, Context := ctx, Timestamp := ts })).outcome
        = .panic) ∧
    (∀ s, (rest.Batch.Extract d now nows
      (.ok { env := env, Events := .string s, Context := ctx, Timestamp := ts })).outcome
        = .panic) ∧
    (∀ fields, (rest.Batch.Extract d now nows
      (.ok { env := env, Events := .object fields, Context := ctx, Timestamp := ts })).outcome
        = .panic) ∧
    (∀ items, (rest.Batch.Extract d now nows
      (.ok { env := env, Events := .array items, Context := ctx, Timestamp := ts })).outcome
        ≠ .panic) := by
  refine ⟨rfl, ?_, ?_, ?_, ?_, ?_, ?_⟩
  · unfold rest.Batch.Extract
    cases hz : ts.IsZero <;> simp [hz]
  · intro b
    unfold rest.Batch.Extract
    cases hz : ts.IsZero <;> simp [hz]
  · intro q
    unfold rest.Batch.Extract
    cases hz : ts.IsZero <;> simp [hz]
  · intro s
    unfold rest.Batch.Extract
    cases hz : ts.IsZero <;> simp [hz]
  · intro fields
    unfold rest.Batch.Extract
    cases hz : ts.IsZero <;> simp [hz]
  · intro items
    rw [rest.batch_extract_array]
    split <;> simp

/-- C10: on an envelope whose `batch` is a sequence none of whose items
contributes a sub-event, and whose shared context is absent or encodes,
`Batch.Extract` returns an event whose `SubEvents` is the empty, non-nil list.
Whatever the items, it then returns an event: a failure of an item never makes
the result an error, and the only error it can return is that of the encoding
of the shared context. -/
theorem batch_without_valid_items (d : rest.Deps) (now : time.Time) (nows : Nat → time.Time)
    (env : Option rest.Options) (ctx : Option analytics.Context) (ts : time.Time)
    (items : List JSON) (c : Option Bytes)
    (hnone : ∀ p ∈ items.enum, rest.Batch.contribution d (nows p.1) p.2 = none)
    (hctx : rest.encodeContext d ctx = .ok c) :
    (rest.Batch.Extract d now nows
        (.ok { env := env, Events := .array items, Context := ctx, Timestamp := ts })).outcome =
      .ok { Version := "v1.0", Context := c, Data := none,
            SentAt := some (if ts.IsZero then now else ts), Flows := none,
            SubEvents := some [] } ∧
    (∀ others : List JSON, ∃ ev, (rest.Batch.Extract d now nows
        (.ok { env := env, Events := .array others, Context := ctx, Timestamp := ts })).outcome
          = .ok ev) ∧
    (∀ (others : List JSON) (ctx' : Option analytics.Context) (e : errors.Error),
      (rest.Batch.Extract d now nows
        (.ok { env := env, Events := .array others, Context := ctx', Timestamp := ts })).outcome
          = .fail e →
        rest.encodeContext d ctx' = .error e ∧ e = rest.badRequest) := by
  refine ⟨?_, ?_, ?_⟩
  · rw [rest.batch_extract_array, hctx]
    have : rest.Batch.accepted d nows items = [] := by
      unfold rest.Batch.accepted
      rw [List.filterMap_eq_nil_iff]
      exact hnone
    simp only [this]
  · intro others
    rw [rest.batch_extract_array, hctx]
    exact ⟨_, rfl⟩
  · intro others ctx' e h
    rw [rest.batch_extract_array] at h
    split at h
    · rename_i e' he
      cases h
      exact ⟨he, rest.encodeContext_error _ _ _ he⟩
    · cases h

/-- C10, at the body `{"batch":[{"type":"bogus"},{"type":"identify"},7]}`: an
unsupported kind, an identify without identifier and a number give the empty
list of sub-events, not an error. -/
theorem batch_without_valid_items_witness :
    (rest.Batch.Extract sample.deps sample.now sample.nows
        (.ok { env := none, Events := .array sample.itemsRejected, Context := none,
               Timestamp := time.Time.zero })).outcome =
      .ok { Version := "v1.0", Context := none, Data := none,
            SentAt := some sample.now, Flows := none, SubEvents := some [] } :=
  (batch_without_valid_items sample.deps sample.now sample.nows none none time.Time.zero
    sample.itemsRejected none
    (by
      intro p hp
      simp only [sample.itemsRejected, List.enum, List.enumFrom_cons, List.enumFrom_nil,
        List.mem_cons, List.mem_singleton, List.not_mem_nil, or_false] at hp
      rcases hp with rfl | rfl | rfl <;> rfl)
    rfl).1

/-- C7, at the alias body `{"userId":"u","previousId":"p"}` and at the sample
batch: the alias event has one flow and nil `SubEvents`, the batch event has
non-nil `SubEvents` and nil `Flows`. -/
theorem extract_flows_or_subEvents_witness :
    (∃ ev, rest.Alias.Extract sample.deps sample.now (.ok sample.aliasBody) = .ok ev ∧
      ev.SubEvents = none ∧ ∃ f, ev.Flows = some [f]) ∧
    (∃ ev, (rest.Batch.Extract sample.deps sample.now sample.nows
        (.ok sample.batch)).outcome = .ok ev ∧
      ev.Flows = none ∧ ∃ l, ev.SubEvents = some l) :=
  ⟨⟨{ Version := "v1.0", Context := none, Data := none, SentAt := some time.Time.zero,
       Flows := some [flow.Flow.Alias { sample.aliasBody with Timestamp := sample.now }],
       SubEvents := none },
     rfl,
     (extract_flows_or_subEvents sample.deps sample.now).2.1 (.ok sample.aliasBody) _ rfl⟩,
   ⟨{ Version := "v1.0", Context := none, Data := none, SentAt := some sample.now,
      Flows := none,
      SubEvents := some (rest.Batch.accepted sample.deps sample.nows sample.items) },
     rfl,
     (extract_flows_or_subEvents sample.deps sample.now).2.2.2.2 sample.nows
       (.ok sample.batch) _ rfl⟩⟩

/-- C9, at a page payload with context and properties: the sub-event carries
the bytes the encoders return for them. -/
theorem marshal_context_and_data_bytes_witness :
    rest.Page.marshal sample.deps sample.now { sample.pageWithContext with env := none } =
        .ok { Trigger := "page", Context := some "c", Data := some "q",
              Flows := some [flow.Flow.Page
                { sample.pageWithContext with Timestamp := sample.now }] } ∧
      (∃ b, sample.deps.ContextMarshalJSON { fields := [("userId", .string "c")] } = .ok b ∧
        some "c" = some b) ∧
      (∃ b, sample.deps.Marshal [("userId", .string "q")] = .ok b ∧ some "q" = some b) :=
  ⟨rfl,
   ((marshal_context_and_data_bytes sample.deps sample.now).2.2.1
      { sample.pageWithContext with env := none } _ rfl).2.1 _ rfl,
   ((marshal_context_and_data_bytes sample.deps sample.now).2.2.1
      { sample.pageWithContext with env := none } _ rfl).2.2.2 _ rfl⟩

/-! ## The registry of triggers -/

/-- C11: for every `Options` value the registry of `REST.Triggers` has exactly
the keys identify, track, group, alias, page, screen and batch, each once; and
the trigger under each of identify, alias, page, screen and batch has its key
as `String()` and, as `Mode()`, the HTTP mode with the one method "POST", the
path `Prefix ++ "/v1/" ++ key` and the two display flags of the options. The
same holds of the source `New` builds from valid options. -/
theorem triggers_registry (o : rest.Options) (opts : Option source.Options) :
    ((rest.REST.Triggers { env := some o, options := opts }).map Prod.fst =
        ["identify", "track", "group", "alias", "page", "screen", "batch"]) ∧
    ((rest.REST.Triggers { env := some o, options := opts }).map Prod.fst).Nodup ∧
    (∀ k : String,
      ((rest.REST.Triggers { env := some o, options := opts }).lookup k).isSome = true ↔
        k ∈ ["identify", "track", "group", "alias", "page", "screen", "batch"]) ∧
    (∃ t, (rest.REST.Triggers { env := some o, options := opts }).lookup "identify" =
        some (.Identify t) ∧
      rest.Identify.String t = "identify" ∧
      rest.Identify.Mode t =
        some { Mode := source.ModeHTTP,
               UsingHTTP := some { Methods := ["POST"],
                                   Path := o.Prefix ++ "/v1/" ++ "identify",
                                   ShowMeta := o.ShowMeta, ShowData := o.ShowData } }) ∧
    (∃ t, (rest.REST.Triggers { env := some o, options := opts }).lookup "alias" =
        some (.Alias t) ∧
      rest.Alias.String t = "alias" ∧
      rest.Alias.Mode t =
        some { Mode := source.ModeHTTP,
               UsingHTTP := some { Methods := ["POST"],
                                   Path := o.Prefix ++ "/v1/" ++ "alias",
                                   ShowMeta := o.ShowMeta, ShowData := o.ShowData } }) ∧
    (∃ t, (rest.REST.Triggers { env := some o, options := opts }).lookup "page" =
        some (.Page t) ∧
      rest.Page.String t = "page" ∧
      rest.Page.Mode t =
        some { Mode := source.ModeHTTP,
               UsingHTTP := some { Methods := ["POST"],
                                   Path := o.Prefix ++ "/v1/" ++ "page",
                                   ShowMeta := o.ShowMeta, ShowData := o.ShowData } }) ∧
    (∃ t, (rest.REST.Triggers { env := some o, options := opts }).lookup "screen" =
        some (.Screen t) ∧
      rest.Screen.String t = "screen" ∧
      rest.Screen.Mode t =
        some { Mode := source.ModeHTTP,
               UsingHTTP := some { Methods := ["POST"],
                                   Path := o.Prefix ++ "/v1/" ++ "screen",
                                   ShowMeta := o.ShowMeta, ShowData := o.ShowData } }) ∧
    (∃ t, (rest.REST.Triggers { env := some o, options := opts }).lookup "batch" =
        some (.Batch t) ∧
      rest.Batch.String t = "batch" ∧
      rest.Batch.Mode t =
        some { Mode := source.ModeHTTP,
               UsingHTTP := some { Methods := ["POST"],
                                   Path := o.Prefix ++ "/v1/" ++ "batch",
                                   ShowMeta := o.ShowMeta, ShowData := o.ShowData } }) ∧
    (∀ s, rest.New o = some s → s.env = some o) := by
  have happ : ∀ k : String, o.Prefix ++ "/v1/" ++ k = o.Prefix ++ ("/v1/" ++ k) := by
    intro k
    exact String.append_assoc _ _ _
  have hkeys : (rest.REST.Triggers { env := some o, options := opts }).map Prod.fst =
      ["identify", "track", "group", "alias", "page", "screen", "batch"] := rfl
  refine ⟨hkeys, by rw [hkeys]; decide, ?_, ?_, ?_, ?_, ?_, ?_, ?_⟩
  · intro k
    simp only [rest.REST.Triggers, List.lookup_isSome_iff]
    simp
  · exact ⟨_, rfl, rfl, by rw [happ]; rfl⟩
  · exact ⟨_, rfl, rfl, by rw [happ]; rfl⟩
  · exact ⟨_, rfl, rfl, by rw [happ]; rfl⟩
  · exact ⟨_, rfl, rfl, by rw [happ]; rfl⟩
  · exact ⟨_, rfl, rfl, by rw [happ]; rfl⟩
  · intro s h
    unfold rest.New at h
    split at h
    · cases h
    · cases h; rfl

/-- C11, at the options `{ShowMeta: true, ShowData: false, Prefix: "/cdp"}`:
the batch trigger is served at "/cdp/v1/batch". -/
theorem triggers_registry_witness :
    ∃ t, (rest.REST.Triggers { env := some sample.options, options := none }).lookup "batch" =
        some (.Batch t) ∧
      rest.Batch.Mode t =
        some { Mode := "http",
               UsingHTTP := some { Methods := ["POST"], Path := "/cdp/v1/batch",
                                   ShowMeta := true, ShowData := false } } := by
  obtain ⟨t, h1, -, h3⟩ := (triggers_registry sample.options none).2.2.2.2.2.2.2.1
  exact ⟨t, h1, h3⟩

/-! ## Unknown fields -/

/-- When an item contributes a sub-event, in the words of the specification. -/
theorem rest.contribution_eq_some_iff (d : rest.Deps) (t : time.Time) (item : JSON)
    (s : source.SubEvent) :
    rest.Batch.contribution d t item = some s ↔
      ∃ fields kind b, item = .object fields ∧
        fields.lookup "type" = some (.string kind) ∧
        kind ∈ rest.Batch.kinds ∧
        d.Marshal fields = .ok b ∧
        rest.Batch.normalize d t kind b = .ok s := by
  constructor
  · intro h
    unfold rest.Batch.contribution at h
    split at h
    · rename_i fields
      split at h
      · rename_i kind hl
        split at h
        · rename_i hk
          split at h
          · rename_i b hm
            split at h
            · rename_i s' hn
              cases h
              exact ⟨fields, kind, b, rfl, hl, hk, hm, hn⟩
            · cases h
          · cases h
        · cases h
      · cases h
    · cases h
  · rintro ⟨fields, kind, b, rfl, hl, hk, hm, hn⟩
    simp [rest.Batch.contribution, hl, hk, hm, hn]

/-- A contribution of the item at index `i` is among the sub-events of the
batch. -/
theorem rest.mem_accepted (d : rest.Deps) (nows : Nat → time.Time) (items : List JSON)
    (i : Nat) (item : JSON) (s : source.SubEvent) (hi : items[i]? = some item)
    (hc : rest.Batch.contribution d (nows i) item = some s) :
    s ∈ rest.Batch.accepted d nows items := by
  unfold rest.Batch.accepted
  rw [List.mem_filterMap]
  exact ⟨(i, item), List.mk_mem_enum_iff_getElem?.2 hi, hc⟩

/-- Once an error is saved, the decoding of an object returns an error. -/
theorem json.object_error_of_saved {α : Type} (lib : json.Lib) (fields : List (json.Field α))
    (disallow : Bool) (entries : List (String × JSON)) :
    ∀ (v : α) (saved : Option String), saved.isSome = true →
      (json.object lib fields disallow entries v saved).2.isSome = true := by
  induction entries with
  | nil => intro v saved h; exact h
  | cons p rest ih =>
    obtain ⟨key, item⟩ := p
    intro v saved h
    have hs : ∀ err, (json.saveError saved err).isSome = true := by
      intro err
      cases saved <;> rfl
    unfold json.object
    cases hf : json.findField fields key with
    | some f =>
      simp only
      cases hst : f.store disallow item v with
      | ok v' => exact ih v' saved h
      | saved err v' => exact ih v' _ (hs err)
      | abort err v' => rfl
    | none =>
      simp only
      cases disallow
      · exact ih v saved h
      · exact ih v _ (hs _)

/-- With unknown fields disallowed, the decoding of an object that has a key
without a field returns an error. -/
theorem json.object_disallow_unknown {α : Type} (lib : json.Lib)
    (fields : List (json.Field α)) (entries : List (String × JSON)) (k : String) (item : JSON)
    (hmem : (k, item) ∈ entries) (hk : json.findField fields k = none) :
    ∀ (v : α) (saved : Option String),
      (json.object lib fields true entries v saved).2.isSome = true := by
  induction entries with
  | nil => cases hmem
  | cons p rest ih =>
    obtain ⟨key, item'⟩ := p
    intro v saved
    rcases List.mem_cons.1 hmem with heq | hrest
    · cases heq
      unfold json.object
      simp only [hk, if_true]
      exact json.object_error_of_saved lib fields true rest v _ (by cases saved <;> rfl)
    · unfold json.object
      cases hf : json.findField fields key with
      | some f =>
        simp only
        cases hst : f.store true item' v with
        | ok v' => exact ih hrest v' saved
        | saved err v' => exact ih hrest v' _
        | abort err v' => rfl
      | none =>
        simp only [if_true]
        exact ih hrest v _

/-- With unknown fields allowed, the decoding of an object is that of its
entries whose key has a field. -/
theorem json.object_allow_unknown {α : Type} (lib : json.Lib)
    (fields : List (json.Field α)) (entries : List (String × JSON)) :
    ∀ (v : α) (saved : Option String),
      json.object lib fields false entries v saved =
        json.object lib fields false (json.knownEntries fields entries) v saved := by
  induction entries with
  | nil => intro v saved; rfl
  | cons p rest ih =>
    obtain ⟨key, item⟩ := p
    intro v saved
    unfold json.knownEntries at ih ⊢
    cases hf : json.findField fields key with
    | some f =>
      rw [List.filter_cons_of_pos (by simp [hf])]
      unfold json.object
      simp only [hf]
      cases hst : f.store false item v with
      | ok v' => exact ih v' saved
      | saved err v' => exact ih v' _
      | abort err v' => rfl
    | none =>
      rw [List.filter_cons_of_neg (by simp [hf])]
      rw [json.object]
      simp only [hf]
      exact ih v saved

/-- A key has no field exactly when no field name equals it up to folding. -/
theorem json.findField_eq_none_iff {α : Type} (fields : List (json.Field α)) (key : String) :
    json.findField fields key = none ↔
      ∀ n ∈ fields.map (fun f => f.name), json.equalFold n key = false := by
  unfold json.findField
  constructor
  · intro h
    split at h
    · cases h
    · intro n hn
      rw [List.find?_eq_none] at h
      obtain ⟨f, hf, rfl⟩ := List.mem_map.1 hn
      simpa using h f hf
  · intro h
    have hfold : fields.find? (fun f => json.equalFold f.name key) = none := by
      rw [List.find?_eq_none]
      intro f hf
      simpa using h f.name (List.mem_map.2 ⟨f, hf, rfl⟩)
    have hexact : fields.find? (fun f => f.name == key) = none := by
      rw [List.find?_eq_none]
      intro f hf hname
      have hn : f.name = key := by simpa using hname
      have := h f.name (List.mem_map.2 ⟨f, hf, rfl⟩)
      rw [hn] at this
      simp [json.equalFold] at this
    rw [hexact, hfold]

/-- A decoder that disallows unknown fields returns an error on an object that
has a key without a field. -/
theorem json.decode_disallow_unknown {α : Type} (lib : json.Lib)
    (fields : List (json.Field α)) (entries : List (String × JSON)) (k : String) (item : JSON)
    (v : α) (hmem : (k, item) ∈ entries) (hk : json.findField fields k = none) :
    ∃ msg, (json.NewDecoder.DisallowUnknownFields.Decode lib fields (.object entries) v).2 =
      some msg := by
  have h := json.object_disallow_unknown lib fields entries k item hmem hk v none
  exact Option.isSome_iff_exists.1 h

/-- An item of a batch that names a supported kind, is re-encoded and is
normalized to a sub-event yields that sub-event in the result of the batch. -/
theorem rest.batch_item_accepted (d : rest.Deps) (now : time.Time) (nows : Nat → time.Time)
    (items : List JSON) (i : Nat) (fields : JSON.Object) (kind : String) (b : Bytes)
    (s : source.SubEvent) (hk : kind ∈ rest.Batch.kinds)
    (hl : fields.lookup "type" = some (.string kind))
    (hi : items[i]? = some (.object fields))
    (hb : d.Marshal fields = .ok b)
    (hn : rest.Batch.normalize d (nows i) kind b = .ok s) :
    rest.Batch.contribution d (nows i) (.object fields) = some s ∧
    ∀ (env : Option rest.Options) (ctx : Option analytics.Context) (ts : time.Time)
      (cb : Option Bytes), rest.encodeContext d ctx = .ok cb →
      ∃ ev, (rest.Batch.Extract d now nows
          (.ok { env := env, Events := .array items, Context := ctx, Timestamp := ts })).outcome
            = .ok ev ∧
        ∃ l, ev.SubEvents = some l ∧ s ∈ l := by
  have h1 : rest.Batch.contribution d (nows i) (.object fields) = some s :=
    (rest.contribution_eq_some_iff d (nows i) _ s).2 ⟨fields, kind, b, rfl, hl, hk, hb, hn⟩
  refine ⟨h1, ?_⟩
  intro env ctx ts cb hctx
  rw [rest.batch_extract_array, hctx]
  exact ⟨_, rfl, _, rfl, rest.mem_accepted d nows items i _ s hi h1⟩

/-- What `json.Unmarshal` leaves in the struct, from the bytes written for an
object, is decoded from the entries of the object whose key has a field, in
the order of their keys. -/
theorem json.unmarshalBytes_known {α : Type} (lib : json.Lib) (codec : json.Codec)
    (fields : List (json.Field α)) (zero : α) (hrt : codec.RoundTrips) (m : JSON.Object)
    (b : Bytes) (hb : codec.Marshal m = .ok b) :
    (json.unmarshalBytes lib codec fields b zero).1 =
      (json.Unmarshal lib fields (.object (json.knownEntries fields (json.sortKeys m)))
        zero).1 := by
  unfold json.unmarshalBytes
  rw [hrt m b hb]
  unfold json.Unmarshal json.Decoder.Decode json.NewDecoder
  simp only
  rw [json.object_allow_unknown]

/-- C12: for identify, alias, page and screen, a body that is an object with a
key for which the struct of the kind has no field (by its exact name, or up to
the folding of the decoder) is rejected by `Extract`, whose decoder disallows
unknown fields, with status 400, message "Bad Request" and one violation at
the path `["analytics", Kind]`. The same object as an item of a batch, naming
the kind in `type`, is tolerated: `json.Unmarshal` skips the key, so when the
payload decoded from its other entries passes the kind's `marshal`, the item
yields that sub-event and it is among the `SubEvents` of the batch result;
this for the library calls made by `encoding/json` on bytes that hold what was
written. A key has no field exactly when no JSON name of the struct equals it
up to folding, and a decoder that does not disallow unknown fields decodes any
object as it decodes the object without such keys. -/
theorem unknown_field_rejected_alone_tolerated_in_batch (lib : json.Lib)
    (codec : json.Codec) (d : rest.Deps) (now : time.Time) :
    (∀ (fields : JSON.Object) (k : String) (v : JSON),
      (k, v) ∈ fields → json.findField (rest.Identify.fields lib) k = none →
      (∃ msg, rest.Identify.ExtractRequest lib d now (.object fields) =
        .error { StatusCode := 400, Message := "Bad Request",
                 Validations := [{ Message := msg, Path := ["analytics", "Identify"] }] }) ∧
      (codec.RoundTrips → fields.lookup "type" = some (.string "identify") →
        ∀ (nows : Nat → time.Time) (items : List JSON) (i : Nat) (b : Bytes)
          (s : source.SubEvent),
          items[i]? = some (.object fields) → codec.Marshal fields = .ok b →
          rest.Identify.marshal (d.encodingJSON lib codec) (nows i)
            { (json.Unmarshal lib (rest.Identify.fields lib)
                (.object (json.knownEntries (rest.Identify.fields lib) (json.sortKeys fields)))
                analytics.Identify.zero).1 with env := none } = .ok s →
          rest.Batch.contribution (d.encodingJSON lib codec) (nows i) (.object fields) =
            some s ∧
          ∀ (env : Option rest.Options) (ctx : Option analytics.Context) (ts : time.Time)
            (cb : Option Bytes), rest.encodeContext (d.encodingJSON lib codec) ctx = .ok cb →
            ∃ ev, (rest.Batch.Extract (d.encodingJSON lib codec) now nows
                (.ok { env := env, Events := .array items, Context := ctx,
                       Timestamp := ts })).outcome = .ok ev ∧
              ∃ l, ev.SubEvents = some l ∧ s ∈ l)) ∧
    (∀ (fields : JSON.Object) (k : String) (v : JSON),
      (k, v) ∈ fields → json.findField (rest.Alias.fields lib) k = none →
      (∃ msg, rest.Alias.ExtractRequest lib d now (.object fields) =
        .error { StatusCode := 400, Message := "Bad Request",
                 Validations := [{ Message := msg, Path := ["analytics", "Alias"] }] }) ∧
      (codec.RoundTrips → fields.lookup "type" = some (.string "alias") →
        ∀ (nows : Nat → time.Time) (items : List JSON) (i : Nat) (b : Bytes)
          (s : source.SubEvent),
          items[i]? = some (.object fields) → codec.Marshal fields = .ok b →
          rest.Alias.marshal (d.encodingJSON lib codec) (nows i)
            { (json.Unmarshal lib (rest.Alias.fields lib)
                (.object (json.knownEntries (rest.Alias.fields lib) (json.sortKeys fields)))
                analytics.Alias.zero).1 with env := none } = .ok s →
          rest.Batch.contribution (d.encodingJSON lib codec) (nows i) (.object fields) =
            some s ∧
          ∀ (env : Option rest.Options) (ctx : Option analytics.Context) (ts : time.Time)
            (cb : Option Bytes), rest.encodeContext (d.encodingJSON lib codec) ctx = .ok cb →
            ∃ ev, (rest.Batch.Extract (d.encodingJSON lib codec) now nows
                (.ok { env := env, Events := .array items, Context := ctx,
                       Timestamp := ts })).outcome = .ok ev ∧
              ∃ l, ev.SubEvents = some l ∧ s ∈ l)) ∧
    (∀ (fields : JSON.Object) (k : String) (v : JSON),
      (k, v) ∈ fields → json.findField (rest.Page.fields lib) k = none →
      (∃ msg, rest.Page.ExtractRequest lib d now (.object fields) =
        .error { StatusCode := 400, Message := "Bad Request",
                 Validations := [{ Message := msg, Path := ["analytics", "Page"] }] }) ∧
      (codec.RoundTrips → fields.lookup "type" = some (.string "page") →
        ∀ (nows : Nat → time.Time) (items : List JSON) (i : Nat) (b : Bytes)
          (s : source.SubEvent),
          items[i]? = some (.object fields) → codec.Marshal fields = .ok b →
          rest.Page.marshal (d.encodingJSON lib codec) (nows i)
            { (json.Unmarshal lib (rest.Page.fields lib)
                (.object (json.knownEntries (rest.Page.fields lib) (json.sortKeys fields)))
                analytics.Page.zero).1 with env := none } = .ok s →
          rest.Batch.contribution (d.encodingJSON lib codec) (nows i) (.object fields) =
            some s ∧
          ∀ (env : Option rest.Options) (ctx : Option analytics.Context) (ts : time.Time)
            (cb : Option Bytes), rest.encodeContext (d.encodingJSON lib codec) ctx = .ok cb →
            ∃ ev, (rest.Batch.Extract (d.encodingJSON lib codec) now nows
                (.ok { env := env, Events := .array items, Context := ctx,
                       Timestamp := ts })).outcome = .ok ev ∧
              ∃ l, ev.SubEvents = some l ∧ s ∈ l)) ∧
    (∀ (fields : JSON.Object) (k : String) (v : JSON),
      (k, v) ∈ fields → json.findField (rest.Screen.fields lib) k = none →
      (∃ msg, rest.Screen.ExtractRequest lib d now (.object fields) =
        .error { StatusCode := 400, Message := "Bad Request",
                 Validations := [{ Message := msg, Path := ["analytics", "Screen"] }] }) ∧
      (codec.RoundTrips → fields.lookup "type" = some (.string "screen") →
        ∀ (nows : Nat → time.Time) (items : List JSON) (i : Nat) (b : Bytes)
          (s : source.SubEvent),
          items[i]? = some (.object fields) → codec.Marshal fields = .ok b →
          rest.Screen.marshal (d.encodingJSON lib codec) (nows i)
            { (json.Unmarshal lib (rest.Screen.fields lib)
                (.object (json.knownEntries (rest.Screen.fields lib) (json.sortKeys fields)))
                analytics.Screen.zero).1 with env := none } = .ok s →
          rest.Batch.contribution (d.encodingJSON lib codec) (nows i) (.object fields) =
            some s ∧
          ∀ (env : Option rest.Options) (ctx : Option analytics.Context) (ts : time.Time)
            (cb : Option Bytes), rest.encodeContext (d.encodingJSON lib codec) ctx = .ok cb →
            ∃ ev, (rest.Batch.Extract (d.encodingJSON lib codec) now nows
                (.ok { env := env, Events := .array items, Context := ctx,
                       Timestamp := ts })).outcome = .ok ev ∧
              ∃ l, ev.SubEvents = some l ∧ s ∈ l)) ∧
    (∀ k : String, json.findField (rest.Identify.fields lib) k = none ↔
      ∀ n ∈ ["type", "messageId", "anonymousId", "userId", "timestamp", "context", "traits",
          "integrations"],
        json.equalFold n k = false) ∧
    (∀ k : String, json.findField (rest.Alias.fields lib) k = none ↔
      ∀ n ∈ ["type", "messageId", "previousId", "userId", "timestamp", "context", "integrations"],
        json.equalFold n k = false) ∧
    (∀ k : String, json.findField (rest.Page.fields lib) k = none ↔
      ∀ n ∈ ["type", "messageId", "anonymousId", "userId", "name", "timestamp", "context",
          "properties", "integrations"],
        json.equalFold n k = false) ∧
    (∀ k : String, json.findField (rest.Screen.fields lib) k = none ↔
      ∀ n ∈ ["type", "messageId", "anonymousId", "userId", "name", "timestamp", "context",
          "properties", "integrations"],
        json.equalFold n k = false) ∧
    (∀ (α : Type) (fields : List (json.Field α)) (entries : List (String × JSON)) (v : α),
      json.NewDecoder.Decode lib fields (.object entries) v =
        json.NewDecoder.Decode lib fields (.object (json.knownEntries fields entries)) v) := by
  refine ⟨?_, ?_, ?_, ?_, fun k => json.findField_eq_none_iff _ k,
    fun k => json.findField_eq_none_iff _ k, fun k => json.findField_eq_none_iff _ k,
    fun k => json.findField_eq_none_iff _ k, ?_⟩
  · intro fields k v hmem hk
    refine ⟨?_, ?_⟩
    · obtain ⟨msg, h⟩ := json.decode_disallow_unknown lib (rest.Identify.fields lib) fields k v
        analytics.Identify.zero hmem hk
      refine ⟨msg, ?_⟩
      have hd : rest.decodeIdentify lib (.object fields) = .error msg := by
        unfold rest.decodeIdentify
        simp only
        generalize json.NewDecoder.DisallowUnknownFields.Decode lib (rest.Identify.fields lib)
          (.object fields) analytics.Identify.zero = r at h
        obtain ⟨a, e⟩ := r
        simp only at h
        subst h
        rfl
      unfold rest.Identify.ExtractRequest
      rw [hd]
      rfl
    · intro hrt hl nows items i b s hi hb hm
      refine rest.batch_item_accepted (d.encodingJSON lib codec) now nows items i fields
        "identify" b s (by decide) hl hi hb ?_
      show rest.Identify.marshal (d.encodingJSON lib codec) (nows i)
        { (json.unmarshalBytes lib codec (rest.Identify.fields lib) b analytics.Identify.zero).1 with
          env := none } = .ok s
      rw [json.unmarshalBytes_known lib codec _ _ hrt fields b hb]
      exact hm
  · intro fields k v hmem hk
    refine ⟨?_, ?_⟩
    · obtain ⟨msg, h⟩ := json.decode_disallow_unknown lib (rest.Alias.fields lib) fields k v
        analytics.Alias.zero hmem hk
      refine ⟨msg, ?_⟩
      have hd : rest.decodeAlias lib (.object fields) = .error msg := by
        unfold rest.decodeAlias
        simp only
        generalize json.NewDecoder.DisallowUnknownFields.Decode lib (rest.Alias.fields lib)
          (.object fields) analytics.Alias.zero = r at h
        obtain ⟨a, e⟩ := r
        simp only at h
        subst h
        rfl
      unfold rest.Alias.ExtractRequest
      rw [hd]
      rfl
    · intro hrt hl nows items i b s hi hb hm
      refine rest.batch_item_accepted (d.encodingJSON lib codec) now nows items i fields
        "alias" b s (by decide) hl hi hb ?_
      show rest.Alias.marshal (d.encodingJSON lib codec) (nows i)
        { (json.unmarshalBytes lib codec (rest.Alias.fields lib) b analytics.Alias.zero).1 with
          env := none } = .ok s
      rw [json.unmarshalBytes_known lib codec _ _ hrt fields b hb]
      exact hm
  · intro fields k v hmem hk
    refine ⟨?_, ?_⟩
    · obtain ⟨msg, h⟩ := json.decode_disallow_unknown lib (rest.Page.fields lib) fields k v
        analytics.Page.zero hmem hk
      refine ⟨msg, ?_⟩
      have hd : rest.decodePage lib (.object fields) = .error msg := by
        unfold rest.decodePage
        simp only
        generalize json.NewDecoder.DisallowUnknownFields.Decode lib (rest.Page.fields lib)
          (.object fields) analytics.Page.zero = r at h
        obtain ⟨a, e⟩ := r
        simp only at h
        subst h
        rfl
      unfold rest.Page.ExtractRequest
      rw [hd]
      rfl
    · intro hrt hl nows items i b s hi hb hm
      refine rest.batch_item_accepted (d.encodingJSON lib codec) now nows items i fields
        "page" b s (by decide) hl hi hb ?_
      show rest.Page.marshal (d.encodingJSON lib codec) (nows i)
        { (json.unmarshalBytes lib codec (rest.Page.fields lib) b analytics.Page.zero).1 with
          env := none } = .ok s
      rw [json.unmarshalBytes_known lib codec _ _ hrt fields b hb]
      exact hm
  · intro fields k v hmem hk
    refine ⟨?_, ?_⟩
    · obtain ⟨msg, h⟩ := json.decode_disallow_unknown lib (rest.Screen.fields lib) fields k v
        analytics.Screen.zero hmem hk
      refine ⟨msg, ?_⟩
      have hd : rest.decodeScreen lib (.object fields) = .error msg := by
        unfold rest.decodeScreen
        simp only
        generalize json.NewDecoder.DisallowUnknownFields.Decode lib (rest.Screen.fields lib)
          (.object fields) analytics.Screen.zero = r at h
        obtain ⟨a, e⟩ := r
        simp only at h
        subst h
        rfl
      unfold rest.Screen.ExtractRequest
      rw [hd]
      rfl
    · intro hrt hl nows items i b s hi hb hm
      refine rest.batch_item_accepted (d.encodingJSON lib codec) now nows items i fields
        "screen" b s (by decide) hl hi hb ?_
      show rest.Screen.marshal (d.encodingJSON lib codec) (nows i)
        { (json.unmarshalBytes lib codec (rest.Screen.fields lib) b analytics.Screen.zero).1 with
          env := none } = .ok s
      rw [json.unmarshalBytes_known lib codec _ _ hrt fields b hb]
      exact hm
  · intro α fields entries v
    exact json.object_allow_unknown lib fields entries v none

theorem sample.unflat_flat (m : JSON.Object) :
    ∀ l, sample.flat m = some l → sample.unflat l = m := by
  induction m with
  | nil =>
    intro l h
    cases h
    rfl
  | cons p rest ih =>
    obtain ⟨k, v⟩ := p
    intro l h
    cases v with
    | string x =>
      unfold sample.flat at h
      cases hr : sample.flat rest with
      | none => rw [hr] at h; cases h
      | some l' =>
        rw [hr] at h
        cases h
        show (k, JSON.string x) :: sample.unflat l' = (k, JSON.string x) :: rest
        rw [ih l' hr]
    | null => cases h
    | bool b => cases h
    | number q => cases h
    | array xs => cases h
    | object xs => cases h

theorem sample.read_mark_key (ks rest : List Char) :
    ∀ key value : List Char,
      sample.read (sample.mark 'k' ks ++ rest) key value =
        sample.read rest (ks.reverse ++ key) value := by
  induction ks with
  | nil => intro key value; rfl
  | cons c cs ih =>
    intro key value
    show sample.read ('k' :: c :: (sample.mark 'k' cs ++ rest)) key value = _
    rw [sample.read]
    simp only [show ¬ ('k' = ';') by decide, if_false, if_true]
    rw [ih]
    simp

theorem sample.read_mark_value (vs rest : List Char) :
    ∀ key value : List Char,
      sample.read (sample.mark 'v' vs ++ rest) key value =
        sample.read rest key (vs.reverse ++ value) := by
  induction vs with
  | nil => intro key value; rfl
  | cons c cs ih =>
    intro key value
    show sample.read ('v' :: c :: (sample.mark 'v' cs ++ rest)) key value = _
    rw [sample.read]
    simp only [show ¬ ('v' = ';') by decide, show ¬ ('v' = 'k') by decide, if_false, if_true]
    rw [ih]
    simp

/-- The sample bytes are read back as they were written. -/
theorem sample.read_write (l : List (String × String)) :
    sample.read (sample.write l) [] [] = some l := by
  induction l with
  | nil => rfl
  | cons p rest ih =>
    obtain ⟨k, v⟩ := p
    show sample.read (sample.mark 'k' k.data ++
      (sample.mark 'v' v.data ++ ';' :: sample.write rest)) [] [] = _
    rw [sample.read_mark_key, sample.read_mark_value]
    have hsep : ∀ key value : List Char,
        sample.read (';' :: sample.write rest) key value =
          (sample.read (sample.write rest) [] []).map
            (fun l => (String.mk key.reverse, String.mk value.reverse) :: l) :=
      fun key value => by rw [sample.read.eq_def]; simp
    rw [hsep, ih]
    simp only [Option.map_some', List.append_nil, List.reverse_reverse]

/-- The sample texts hold what was written. -/
theorem sample.codec_roundTrips : sample.codec.RoundTrips := by
  intro m b hb
  have hb' : (match sample.flat (json.sortKeys m) with
      | some l => Except.ok (String.mk (sample.write l))
      | none => Except.error "json: unsupported value") = Except.ok b := hb
  cases hf : sample.flat (json.sortKeys m) with
  | none => rw [hf] at hb'; cases hb'
  | some l =>
    rw [hf] at hb'
    cases hb'
    show (sample.read (sample.write l) [] []).map (fun l => JSON.object (sample.unflat l)) = _
    rw [sample.read_write]
    simp only [Option.map_some']
    rw [sample.unflat_flat _ l hf]

/-- C12, at the object `{"type":"identify","userId":"u1","plan":"pro"}`: alone
it is rejected at the path `["analytics","Identify"]` because of `plan`; as
the item of a batch it yields the identify sub-event of `u1`, and a decoder
that allows unknown fields decodes it without error. The key `UserID` has a
field, that of `userId`, and the body `null` is decoded without error. -/
theorem unknown_field_rejected_alone_tolerated_in_batch_witness :
    (∃ msg, rest.Identify.ExtractRequest sample.lib sample.jsonDeps sample.now
        (.object sample.identifyWithUnknown) =
      .error { StatusCode := 400, Message := "Bad Request",
               Validations := [{ Message := msg, Path := ["analytics", "Identify"] }] }) ∧
    rest.Batch.contribution sample.jsonDeps (sample.nows 0)
        (.object sample.identifyWithUnknown) =
      some { Trigger := "identify", Context := none, Data := none,
             Flows := some [flow.Flow.Identify
               { analytics.Identify.zero with
                 Typ := "identify", UserId := "u1", Timestamp := sample.nows 0 }] } ∧
    (json.NewDecoder.Decode sample.lib (rest.Identify.fields sample.lib)
        (.object sample.identifyWithUnknown) analytics.Identify.zero).2 = none ∧
    (json.findField (rest.Identify.fields sample.lib) "UserID").isSome = true ∧
    rest.decodeIdentify sample.lib .null = .ok analytics.Identify.zero :=
  have h := (unknown_field_rejected_alone_tolerated_in_batch sample.lib sample.codec
    sample.deps sample.now).1 sample.identifyWithUnknown "plan" (.string "pro")
    (List.mem_cons_of_mem _ (List.mem_cons_of_mem _ (List.mem_cons_self _ _))) rfl
  ⟨h.1,
   (h.2 sample.codec_roundTrips rfl sample.nows [.object sample.identifyWithUnknown] 0
      "kpklkaknvpvrvo;ktkykpkevivdvevnvtvivfvy;kukskekrkIkdvuv1;" _ rfl rfl rfl).1,
   rfl, rfl, rfl⟩

/-! ## The shared context and timestamp of a batch -/

/-- What `Batch.Extract` logs on an envelope whose `batch` is an array: the
log of its loop. -/
theorem rest.batch_extract_logged (d : rest.Deps) (now : time.Time) (nows : Nat → time.Time)
    (env : Option rest.Options) (ctx : Option analytics.Context) (ts : time.Time)
    (items : List JSON) :
    (rest.Batch.Extract d now nows
        (.ok { env := env, Events := .array items, Context := ctx, Timestamp := ts })).logged =
      (rest.Batch.loop d nows 0 items ([], [])).2 := by
  unfold rest.Batch.Extract
  cases hz : ts.IsZero <;> simp only [hz] <;>
    cases hc : rest.encodeContext d ctx <;> simp [hc]

/-- C13: two envelopes with the same `batch` sequence, processed at the same
clock readings for the items, give the same `SubEvents` (and the same log),
whatever their shared contexts and shared timestamps: these only set the
`Context` bytes and the `SentAt` of the batch event. The `Context` of a
sub-event of identify, alias, page or screen is the encoding of the context of
the item it comes from. -/
theorem batch_subEvents_independent_of_envelope (d : rest.Deps) (now1 now2 : time.Time)
    (nows : Nat → time.Time) (env1 env2 : Option rest.Options)
    (ctx1 ctx2 : Option analytics.Context) (ts1 ts2 : time.Time) (items : List JSON)
    (ev1 ev2 : source.Event)
    (h1 : (rest.Batch.Extract d now1 nows
      (.ok { env := env1, Events := .array items, Context := ctx1, Timestamp := ts1 })).outcome
        = .ok ev1)
    (h2 : (rest.Batch.Extract d now2 nows
      (.ok { env := env2, Events := .array items, Context := ctx2, Timestamp := ts2 })).outcome
        = .ok ev2) :
    ev1.SubEvents = ev2.SubEvents ∧
    ev1.SubEvents =
      some (items.enum.filterMap (fun p => rest.Batch.contribution d (nows p.1) p.2)) ∧
    (rest.Batch.Extract d now1 nows
      (.ok { env := env1, Events := .array items, Context := ctx1, Timestamp := ts1 })).logged =
    (rest.Batch.Extract d now2 nows
      (.ok { env := env2, Events := .array items, Context := ctx2, Timestamp := ts2 })).logged ∧
    ev1.Version = ev2.Version ∧ ev1.Data = ev2.Data ∧ ev1.Flows = ev2.Flows ∧
    rest.encodeContext d ctx1 = .ok ev1.Context ∧
    rest.encodeContext d ctx2 = .ok ev2.Context ∧
    ev1.SentAt = some (if ts1.IsZero then now1 else ts1) ∧
    ev2.SentAt = some (if ts2.IsZero then now2 else ts2) ∧
    (∀ (i : Nat) (fields : JSON.Object) (b : Bytes) (s : source.SubEvent),
      items[i]? = some (.object fields) → d.Marshal fields = .ok b →
      rest.Batch.contribution d (nows i) (.object fields) = some s →
        (fields.lookup "type" = some (.string "identify") →
          rest.encodeContext d (d.UnmarshalIdentify b).Context = .ok s.Context) ∧
        (fields.lookup "type" = some (.string "alias") →
          rest.encodeContext d (d.UnmarshalAlias b).Context = .ok s.Context) ∧
        (fields.lookup "type" = some (.string "page") →
          rest.encodeContext d (d.UnmarshalPage b).Context = .ok s.Context) ∧
        (fields.lookup "type" = some (.string "screen") →
          rest.encodeContext d (d.UnmarshalScreen b).Context = .ok s.Context)) := by
  have hlog1 := rest.batch_extract_logged d now1 nows env1 ctx1 ts1 items
  have hlog2 := rest.batch_extract_logged d now2 nows env2 ctx2 ts2 items
  rw [rest.batch_extract_array] at h1 h2
  split at h1
  · cases h1
  · rename_i c1 hc1
    split at h2
    · cases h2
    · rename_i c2 hc2
      cases h1
      cases h2
      refine ⟨rfl, rfl, by rw [hlog1, hlog2], rfl, rfl, rfl, hc1, hc2, rfl, rfl, ?_⟩
      intro i fields b s _ hb hc
      rw [rest.contribution_eq_some_iff] at hc
      obtain ⟨fields', kind, b', hf, hl, -, hm, hn⟩ := hc
      cases hf
      rw [hb] at hm
      cases hm
      refine ⟨?_, ?_, ?_, ?_⟩
      · intro ht
        rw [hl] at ht
        cases ht
        obtain ⟨-, ctx, data, hctx, -, rfl⟩ := rest.identify_marshal_ok d _ _ s hn
        exact hctx
      · intro ht
        rw [hl] at ht
        cases ht
        obtain ⟨-, ctx, hctx, rfl⟩ := rest.alias_marshal_ok d _ _ s hn
        exact hctx
      · intro ht
        rw [hl] at ht
        cases ht
        obtain ⟨-, ctx, data, hctx, -, rfl⟩ := rest.page_marshal_ok d _ _ s hn
        exact hctx
      · intro ht
        rw [hl] at ht
        cases ht
        obtain ⟨-, ctx, data, hctx, -, rfl⟩ := rest.screen_marshal_ok d _ _ s hn
        exact hctx

/-- C13, at the five sample items: without shared context and timestamp, and
with both, the batch event has the same two sub-events; only its `Context` and
`SentAt` differ. -/
theorem batch_subEvents_independent_of_envelope_witness :
    ∃ ev1 ev2,
      (rest.Batch.Extract sample.deps sample.now sample.nows
        (.ok { env := none, Events := .array sample.items, Context := none,
               Timestamp := time.Time.zero })).outcome = .ok ev1 ∧
      (rest.Batch.Extract sample.deps sample.now sample.nows
        (.ok { env := none, Events := .array sample.items,
               Context := some sample.sharedContext,
               Timestamp := sample.sharedTimestamp })).outcome = .ok ev2 ∧
      ev1.SubEvents = ev2.SubEvents ∧
      ev1.Context = none ∧ ev2.Context = some "shared" ∧
      ev1.SentAt = some sample.now ∧ ev2.SentAt = some sample.sharedTimestamp := by
  refine ⟨_, _, rfl, rfl, ?_, rfl, rfl, rfl, rfl⟩
  exact (batch_subEvents_independent_of_envelope sample.deps sample.now sample.now
    sample.nows none none none (some sample.sharedContext) time.Time.zero
    sample.sharedTimestamp sample.items _ _ rfl rfl).1

/-! ## The required fields of an alias -/

/-- The failure of `Alias.marshal` under the `Validate` of analytics-go v3, by
the two identifiers: an empty user identifier is reported first. -/
theorem rest.alias_marshal_v3 (d : rest.Deps) (now : time.Time) (t : rest.Alias)
    (hv : d.AliasValidate = sample.AliasValidate) :
    (t.UserId.length = 0 →
      rest.Alias.marshal d now t =
        .error { StatusCode := 400, Message := "Bad Request",
                 Validations := [{ Message := "UserId must be set",
                                   Path := ["analytics", "Alias", "UserId"] }] }) ∧
    (t.UserId.length ≠ 0 → t.PreviousId.length = 0 →
      rest.Alias.marshal d now t =
        .error { StatusCode := 400, Message := "Bad Request",
                 Validations := [{ Message := "PreviousId must be set",
                                   Path := ["analytics", "Alias", "PreviousId"] }] }) := by
  have hsplit : strings.Split "analytics.Alias" "." = ["analytics", "Alias"] := by decide
  constructor
  · intro hu
    rw [rest.alias_marshal_eq, hv]
    cases hz : t.Timestamp.IsZero <;>
      simp [sample.AliasValidate, hu, rest.fieldFailure, hsplit]
  · intro hu hp
    rw [rest.alias_marshal_eq, hv]
    cases hz : t.Timestamp.IsZero <;>
      simp [sample.AliasValidate, hu, hp, rest.fieldFailure, hsplit]

/-- A Go string has length zero exactly when it is the empty string. -/
theorem strings.length_eq_zero_iff (s : String) : s.length = 0 ↔ s = "" := by
  constructor
  · intro h
    exact String.ext (List.length_eq_zero.mp h)
  · rintro rfl
    rfl

/-- C14, amended: with the `Validate` of analytics-go v3, an alias payload whose
previous identifier is omitted or empty and whose user identifier is not empty
makes `Alias.marshal` fail with status 400 and the one violation
"PreviousId must be set" at the path `["analytics","Alias","PreviousId"]`,
whatever its other fields; when the user identifier is empty too, the failure
is the first violation only, which names `UserId` at
`["analytics","Alias","UserId"]`. -/
theorem alias_missing_previousId_reported_after_userId (d : rest.Deps) (now : time.Time)
    (t : rest.Alias) (hv : d.AliasValidate = sample.AliasValidate)
    (hp : t.PreviousId = "") :
    (t.UserId ≠ "" →
      rest.Alias.marshal d now t =
        .error { StatusCode := 400, Message := "Bad Request",
                 Validations := [{ Message := "PreviousId must be set",
                                   Path := ["analytics", "Alias", "PreviousId"] }] }) ∧
    (t.UserId = "" →
      rest.Alias.marshal d now t =
        .error { StatusCode := 400, Message := "Bad Request",
                 Validations := [{ Message := "UserId must be set",
                                   Path := ["analytics", "Alias", "UserId"] }] }) := by
  obtain ⟨h1, h2⟩ := rest.alias_marshal_v3 d now t hv
  constructor
  · intro hu
    exact h2 (fun h => hu ((strings.length_eq_zero_iff _).1 h))
      ((strings.length_eq_zero_iff _).2 hp)
  · intro hu
    exact h1 ((strings.length_eq_zero_iff _).2 hu)

/-- C14, amended, at the alias body `{"userId":"u"}`: the failure names
`PreviousId`. -/
theorem alias_missing_previousId_reported_after_userId_witness :
    rest.Alias.marshal sample.deps sample.now { sample.aliasNoPrevious with env := none } =
      .error { StatusCode := 400, Message := "Bad Request",
               Validations := [{ Message := "PreviousId must be set",
                                 Path := ["analytics", "Alias", "PreviousId"] }] } :=
  (alias_missing_previousId_reported_after_userId sample.deps sample.now
    { sample.aliasNoPrevious with env := none } rfl rfl).1 (by decide)

/-- C14 as stated fails at the alias body `{}`: the previous identifier is
omitted, and with the `Validate` of analytics-go v3 `Alias.marshal` returns the
failure of the user identifier, whose path `["analytics","Alias","UserId"]`
does not name `PreviousId`. -/
theorem alias_no_ids_failure_names_userId :
    sample.deps.AliasValidate = sample.AliasValidate ∧
    sample.aliasNoIds.PreviousId = "" ∧
    rest.Alias.marshal sample.deps sample.now { sample.aliasNoIds with env := none } =
      .error { StatusCode := 400, Message := "Bad Request",
               Validations := [{ Message := "UserId must be set",
                                 Path := ["analytics", "Alias", "UserId"] }] } ∧
    ¬ (∀ t : rest.Alias, t.PreviousId = "" →
        ∃ e, rest.Alias.marshal sample.deps sample.now t = .error e ∧ e.StatusCode = 400 ∧
          ∃ v ∈ e.Validations, "PreviousId" ∈ v.Path) := by
  have hm : rest.Alias.marshal sample.deps sample.now { sample.aliasNoIds with env := none } =
      .error { StatusCode := 400, Message := "Bad Request",
               Validations := [{ Message := "UserId must be set",
                                 Path := ["analytics", "Alias", "UserId"] }] } := rfl
  refine ⟨rfl, rfl, hm, ?_⟩
  intro h
  obtain ⟨e, he, -, v, hv, hpath⟩ := h { sample.aliasNoIds with env := none } rfl
  rw [hm] at he
  cases he
  simp only [List.mem_singleton] at hv
  subst hv
  revert hpath
  decide
